import Mathlib

/-!
Verification development for the Strawberry collection watcher
(src/src/collection/collectionwatcher.cpp).

The C++ code is shallowly embedded as executable Lean functions.  Paths and
URLs are strings (a QUrl pointing at a local file is represented by the result
of toLocalFile), mtimes are integers (secsSinceEpoch), and external
collaborators (filesystem, tag reader, cue parser, collection backend,
chromaprinter) are supplied as an explicit environment record of functions, so
one scan pass observes a fixed snapshot of the outside world -- the same
assumption the transaction itself makes about its lazily populated caches.
The cooperative stop flag is modelled as a boolean that is constant during a
pass.
-/

/-- QString::section with separator '/': split into chunks at '/'.
Structural recursion so that it evaluates inside the kernel. -/
def splitOnSlash : List Char → List (List Char)
  | [] => [[]]
  | a :: rest =>
    let r := splitOnSlash rest
    if a == '/' then [] :: r
    else
      match r with
      | [] => [[a]]
      | h :: t => (a :: h) :: t

/-- Rejoin chunks with '/' between them. -/
def joinWithSlash : List (List Char) → List Char
  | [] => []
  | [x] => x
  | x :: y :: rest => x ++ '/' :: joinWithSlash (y :: rest)

/-- DirectoryPart / QString::section('/', 0, -2): everything before the last
slash ("" when the string has no slash). -/
def dirPart (p : String) : String :=
  String.mk (joinWithSlash (splitOnSlash p.data).dropLast)

/-- QFileInfo::fileName: the component after the last slash. -/
def fileNamePart (p : String) : String :=
  String.mk ((splitOnSlash p.data).getLastD p.data)

/-- QString::left(lastIndexOf(separator)) as used by
ScanTransaction::GetImmediateSubdirs: the string up to (excluding) the last
slash, or the whole string when it contains no slash (QString::left(-1)). -/
def leftOfLastSep (p : String) : String :=
  if p.data.contains '/' then dirPart p else p

/-- ASCII lower-casing of one character (model of Qt case folding). -/
def lowerChar (c : Char) : Char :=
  if 'A' ≤ c ∧ c ≤ 'Z' then Char.ofNat (c.toNat + 32) else c

/-- Does the character list s start with the character list pat? -/
def listStartsWith : List Char → List Char → Bool
  | _, [] => true
  | [], _ :: _ => false
  | a :: s, b :: p => a == b && listStartsWith s p

/-- Does s contain pat as a contiguous run? -/
def listContains (pat : List Char) : List Char → Bool
  | [] => pat.isEmpty
  | a :: rest => listStartsWith (a :: rest) pat || listContains pat rest

/-- QString::contains(pat, Qt::CaseInsensitive). -/
def containsCI (s pat : String) : Bool :=
  listContains (pat.data.map lowerChar) (s.data.map lowerChar)

/-- QString::startsWith. -/
def strStartsWith (s pre : String) : Bool :=
  listStartsWith s.data pre.data

/-- A collection SongRecord as far as the watcher observes it.  metadata
stands for the block of tag fields compared by Song::IsMetadataEqual and
userData for the user-set fields merged by Song::MergeUserSetData. -/
structure Song where
  id : Int
  path : String
  directoryId : Int
  mtime : Int
  fingerprint : String
  unavailable : Bool
  hasCue : Bool
  cuePath : String
  artAutomatic : String
  artManual : String
  hasEmbeddedCover : Bool
  beginningNanosec : Int
  metadata : String
  userData : String
deriving DecidableEq, Repr

/-- Song::IsMetadataEqual. -/
def metadataEqual (a b : Song) : Bool :=
  a.metadata == b.metadata

/-- Song::IsMetadataAndMoreEqual (full record comparison). -/
def isMetadataAndMoreEqual (a b : Song) : Bool :=
  decide (a = b)

/-- A Subdirectory ledger entry. -/
structure Subdirectory where
  directoryId : Int
  path : String
  mtime : Int
deriving DecidableEq, Repr

/-- A watched top-level Directory. -/
structure Directory where
  id : Int
  path : String
deriving DecidableEq, Repr

/-- One entry produced by the QDirIterator over a directory's immediate
children. -/
structure ChildInfo where
  path : String
  isDir : Bool
  isHidden : Bool
  mtime : Int
deriving DecidableEq, Repr

/-- The environment of one scan pass: a snapshot of the filesystem, the
external collaborators (tag reader, cue parser, chromaprinter, backend
queries) and the watcher settings that the walk reads. -/
structure Env where
  watchedRoots : List String
  isSymlink : String → Bool
  symlinkTarget : String → String
  hasNoMediaFile : String → Bool
  pathExists : String → Bool
  mtime : String → Int
  children : String → List ChildInfo
  isImageExt : String → Bool
  isMediaFile : String → Bool
  readTags : String → Option Song
  createFingerprint : String → String
  cueReadable : String → Bool
  cueLoad : String → String → List Song
  normalizeNFD : String → String
  getSongsByUrl : String → List Song
  getSongsByFingerprint : String → List Song
  noExtPart : String → String
  imageOk : String → Bool
  imageW : String → Nat
  imageH : String → Nat
  bestImageFilters : List String
  haveMusicbrainz : Bool
  songTracking : Bool

/-- The symlink guard at the top of CollectionWatcher::ScanSubdirectory: skip
a symlinked directory whose target lies inside an already-watched root. -/
def skipSymlink (env : Env) (path : String) : Bool :=
  env.isSymlink path &&
    env.watchedRoots.any (fun r => strStartsWith (env.symlinkTarget path) r)

/-- The per-directory album-art candidate map built during the child
enumeration (QMap<QString, QStringList> album_art). -/
abbrev AlbumArt := List (String × List String)

def artLookup : AlbumArt → String → Option (List String)
  | [], _ => none
  | (k, v) :: rest, d => if k == d then some v else artLookup rest d

def artAppend : AlbumArt → String → String → AlbumArt
  | [], d, f => [(d, [f])]
  | (k, v) :: rest, d, f =>
    if k == d then (k, v ++ [f]) :: rest else (k, v) :: artAppend rest d f

def artSet : AlbumArt → String → List String → AlbumArt
  | [], d, v => [(d, v)]
  | (k, w) :: rest, d, v =>
    if k == d then (d, v) :: rest else (k, w) :: artSet rest d v

/-- The decode-and-compare second half of CollectionWatcher::PickBestImage:
decode every candidate and keep the one with the strictly largest pixel area,
starting from an empty path and area 0. -/
def pickBiggestImage (env : Env) (stop : Bool) (images : List String) : String :=
  (images.foldl
    (fun best p =>
      if stop then best
      else if !(env.imageOk p) then best
      else if env.imageW p * env.imageH p > best.1 then (env.imageW p * env.imageH p, p)
      else best)
    ((0 : Nat), "")).2

/-- The filter loop of CollectionWatcher::PickBestImage: work through the
preference terms in order, accumulating the case-insensitive filename matches
of the current term, and stop as soon as the accumulated list is non-empty. -/
def accumulateFiltered (images : List String) : List String → List String → List String
  | [], filtered => filtered
  | f :: rest, filtered =>
    let filtered2 := filtered ++ images.filter (fun img => containsCI (fileNamePart img) f)
    if filtered2.isEmpty then accumulateFiltered images rest filtered2 else filtered2

/-- CollectionWatcher::PickBestImage. -/
def pickBestImage (env : Env) (stop : Bool) (filters images : List String) : String :=
  let filtered := accumulateFiltered images filters []
  let filtered := if filtered.isEmpty then images else filtered
  pickBiggestImage env stop filtered

/-- Spec-worded candidate selection, for the refinement comparison of claim
C5: take the matches of the first preference term that matches at least one
filename, and the unfiltered list when no term matches anything. -/
def preferredCandidates (filters images : List String) : List String :=
  match filters.find? (fun f => images.any (fun img => containsCI (fileNamePart img) f)) with
  | some f => images.filter (fun img => containsCI (fileNamePart img) f)
  | none => images

/-- CollectionWatcher::ImageForSong.  Returns the chosen artwork (the local
path carried by the returned QUrl, "" for the empty QUrl), the updated
album-art map (the map is passed by reference and collapsed to the single
chosen image), and whether PickBestImage was run. -/
def imageForSong (env : Env) (stop : Bool) (path : String) (art : AlbumArt) :
    String × AlbumArt × Bool :=
  let d := dirPart path
  match artLookup art d with
  | none => ("", art, false)
  | some imgs =>
    if imgs.length == 1 then (imgs.headD "", art, false)
    else
      let best := pickBestImage env stop env.bestImageFilters imgs
      (best, artSet art d [best], true)

/-- CollectionWatcher::FindSongByPath. -/
def findSongByPath (songs : List Song) (path : String) : Option Song :=
  songs.find? (fun s => s.path == path)

/-- CollectionWatcher::FindSongByFingerprint (backend-query overload): among
the database records carrying this fingerprint, accept the first whose
recorded path is the candidate file itself or no longer exists on disk. -/
def findSongByFingerprint (env : Env) (file fingerprint : String) : Option Song :=
  (env.getSongsByFingerprint fingerprint).find?
    (fun s => file == s.path || !(env.pathExists s.path))

/-- CollectionWatcher::GetMtimeForCue: 0 for an empty or non-existent cue
path, the file's mtime otherwise. -/
def getMtimeForCue (env : Env) (cuePath : String) : Int :=
  if cuePath == "" then 0
  else if !(env.pathExists cuePath) then 0
  else env.mtime cuePath

/-- CollectionWatcher::IncrementalScanCheck, fired by the periodic timer:
start an incremental scan exactly when the elapsed time since the last scan
is at least 86400 seconds.  Returns whether IncrementalScanNow is called. -/
def incrementalScanCheck (nowSecs lastScanTime : Int) : Bool :=
  decide (nowSecs - lastScanTime ≥ 86400)

/-- QHash<QString, Directory>::constFind over subdir_mapping_. -/
def assocLookup : List (String × Directory) → String → Option Directory
  | [], _ => none
  | (k, v) :: rest, key => if k == key then some v else assocLookup rest key

/-- CollectionWatcher::DirectoryChanged, restricted to its effect on the
per-root rescan queue: resolve the path to its owning root (unknown paths are
ignored) and enqueue it unless it is already queued for that root. -/
def directoryChanged (subdirMapping : List (String × Directory))
    (queue : Int → List String) (subdir : String) : Int → List String :=
  match assocLookup subdirMapping subdir with
  | none => queue
  | some dir =>
    if (queue dir.id).contains subdir then queue
    else fun i => if i == dir.id then queue dir.id ++ [subdir] else queue i

/-- The immutable part of a ScanTransaction: its configuration and the
snapshot caches it populates (at most once each) from the backend.  In the
C++ code the caches live behind dirty flags on the transaction; they are
never invalidated once filled, so a pass observes them as constants. -/
structure ScanCtx where
  dirId : Int
  incremental : Bool
  ignoresMtime : Bool
  markSongsUnavailable : Bool
  expireUnavailableSongsDays : Int
  cachedSongs : List Song
  cachedSongsMissingFingerprint : List Song
  knownSubdirs : List Subdirectory
deriving Repr

/-- The mutable part of a ScanTransaction: the accumulated delta sets and
progress counters.  filesEnumerated is a ghost counter stepped once for every
entry the QDirIterator yields, and fuelExhausted records whether the fuelled
recursion ever ran out (it never does on adequately fuelled runs). -/
structure ScanAcc where
  progress : Nat
  progressMax : Nat
  newSongs : List Song
  touchedSongs : List Song
  deletedSongs : List Song
  readdedSongs : List Song
  newSubdirs : List Subdirectory
  touchedSubdirs : List Subdirectory
  deletedSubdirs : List Subdirectory
  filesChangedPath : List String
  filesEnumerated : Nat
  fuelExhausted : Bool
deriving DecidableEq, Repr

/-- The delta sets of a freshly constructed ScanTransaction. -/
def emptyScanAcc : ScanAcc :=
  { progress := 0, progressMax := 0, newSongs := [], touchedSongs := [],
    deletedSongs := [], readdedSongs := [], newSubdirs := [],
    touchedSubdirs := [], deletedSubdirs := [], filesChangedPath := [],
    filesEnumerated := 0, fuelExhausted := false }

/-- ScanTransaction::AddToProgress. -/
def ScanAcc.addToProgress (a : ScanAcc) (n : Nat) : ScanAcc :=
  { a with progress := a.progress + n }

/-- ScanTransaction::FindSongsInSubdirectory: the cached songs of this root
whose containing directory is the given path. -/
def ScanCtx.findSongsInSubdirectory (c : ScanCtx) (path : String) : List Song :=
  c.cachedSongs.filter (fun s => dirPart s.path == path)

/-- ScanTransaction::HasSongsWithMissingFingerprint. -/
def ScanCtx.hasSongsWithMissingFingerprint (c : ScanCtx) (path : String) : Bool :=
  c.cachedSongsMissingFingerprint.any (fun s => dirPart s.path == path)

/-- ScanTransaction::HasSeenSubdir. -/
def ScanCtx.hasSeenSubdir (c : ScanCtx) (path : String) : Bool :=
  c.knownSubdirs.any (fun sd => sd.path == path && sd.mtime != 0)

/-- ScanTransaction::GetImmediateSubdirs. -/
def ScanCtx.getImmediateSubdirs (c : ScanCtx) (path : String) : List Subdirectory :=
  c.knownSubdirs.filter (fun sd => leftOfLastSep sd.path == path && sd.mtime != 0)

/-- The notifications a transaction can emit while committing (the signals of
CollectionWatcher plus the watch-set updates and the task bookkeeping). -/
inductive WatcherEvent where
  | songsUnavailable (songs : List Song)
  | songsDeleted (songs : List Song)
  | newOrUpdatedSongs (songs : List Song)
  | songsMTimeUpdated (songs : List Song)
  | songsReadded (songs : List Song)
  | subdirsDiscovered (subdirs : List Subdirectory)
  | subdirsMTimeUpdated (subdirs : List Subdirectory)
  | removeWatch (subdir : Subdirectory)
  | addWatch (path : String)
  | updateLastSeen (dirId : Int) (expireDays : Int)
  | taskFinished
deriving DecidableEq, Repr

/-- Does this event carry one of the transaction's delta sets? -/
def isDeltaEvent : WatcherEvent → Bool
  | .songsUnavailable _ => true
  | .songsDeleted _ => true
  | .newOrUpdatedSongs _ => true
  | .songsMTimeUpdated _ => true
  | .songsReadded _ => true
  | .subdirsDiscovered _ => true
  | .subdirsMTimeUpdated _ => true
  | _ => false

/-- Is this one of the two events a deleted-from-disk song can be flushed
as? -/
def isDeletionEvent : WatcherEvent → Bool
  | .songsUnavailable _ => true
  | .songsDeleted _ => true
  | _ => false

/-- ScanTransaction::CommitNewOrUpdatedSongs as the ordered list of emitted
notifications.  monitor is the watcher's monitor_ setting and dirWatched
whether watched_dirs_ still contains this transaction's root. -/
def commitNewOrUpdatedSongs (monitor dirWatched : Bool) (ctx : ScanCtx) (a : ScanAcc) :
    List WatcherEvent :=
  (if a.deletedSongs.isEmpty then []
   else if ctx.markSongsUnavailable then [WatcherEvent.songsUnavailable a.deletedSongs]
   else [WatcherEvent.songsDeleted a.deletedSongs]) ++
  (if a.newSongs.isEmpty then [] else [WatcherEvent.newOrUpdatedSongs a.newSongs]) ++
  (if a.touchedSongs.isEmpty then [] else [WatcherEvent.songsMTimeUpdated a.touchedSongs]) ++
  (if a.readdedSongs.isEmpty then [] else [WatcherEvent.songsReadded a.readdedSongs]) ++
  (if a.newSubdirs.isEmpty then [] else [WatcherEvent.subdirsDiscovered a.newSubdirs]) ++
  (if a.touchedSubdirs.isEmpty then [] else [WatcherEvent.subdirsMTimeUpdated a.touchedSubdirs]) ++
  (a.deletedSubdirs.filterMap
    (fun sd => if dirWatched then some (WatcherEvent.removeWatch sd) else none)) ++
  (if monitor then
    a.newSubdirs.filterMap
      (fun sd => if dirWatched then some (WatcherEvent.addWatch sd.path) else none)
   else []) ++
  [WatcherEvent.updateLastSeen ctx.dirId ctx.expireUnavailableSongsDays]

/-- ScanTransaction::~ScanTransaction: commit unless the watcher's global
stop flag is set, then finish the task. -/
def destructScanTransaction (stopRequested monitor dirWatched : Bool)
    (ctx : ScanCtx) (a : ScanAcc) : List WatcherEvent :=
  (if stopRequested then [] else commitNewOrUpdatedSongs monitor dirWatched ctx a) ++
  [WatcherEvent.taskFinished]

/-- CollectionWatcher::PreserveUserSetData. -/
def preserveUserSetData (matching : Song) (image : String) (out : Song) : Song :=
  let out1 := { out with id := matching.id }
  let out2 := if out1.hasEmbeddedCover then out1 else { out1 with artAutomatic := image }
  { out2 with userData := matching.userData }

/-- CollectionWatcher::UpdateSong: file the rescanned record as new/changed
or merely touched, by the first mismatching comparison. -/
def updateSong (matching out : Song) (a : ScanAcc) : ScanAcc :=
  if matching.unavailable then { a with newSongs := a.newSongs ++ [out] }
  else if !(metadataEqual matching out) then { a with newSongs := a.newSongs ++ [out] }
  else if matching.fingerprint != out.fingerprint then { a with newSongs := a.newSongs ++ [out] }
  else if matching.artAutomatic != out.artAutomatic || matching.artManual != out.artManual then
    { a with newSongs := a.newSongs ++ [out] }
  else if matching.mtime != out.mtime then { a with touchedSongs := a.touchedSongs ++ [out] }
  else { a with touchedSongs := a.touchedSongs ++ [out] }

/-- The fingerprint computation sites (Chromaprinter followed by the "NONE"
fallback), guarded by HAVE_MUSICBRAINZ and song_tracking_. -/
def computeFingerprint (env : Env) (file : String) : String :=
  if env.haveMusicbrainz && env.songTracking then
    let fp := env.createFingerprint file
    if fp == "" then "NONE" else fp
  else ""

/-- QHash<quint64, Song> sections_map lookup: the last record with this
beginning offset wins (operator[] insertion overwrites). -/
def sectionFor (old : List Song) (n : Int) : Option Song :=
  (old.filter (fun s => s.beginningNanosec == n)).getLast?

/-- One iteration of the cue-section update loop of
UpdateCueAssociatedSongs: a section unmatched by beginning offset is new,
a matched one goes through PreserveUserSetData and UpdateSong and records its
used id. -/
def cueUpdateStep (ctx : ScanCtx) (image fingerprint : String)
    (oldSections : List Song) (acc : ScanAcc × List Int) (cueSong0 : Song) :
    ScanAcc × List Int :=
  let cueSong := { cueSong0 with directoryId := ctx.dirId, fingerprint := fingerprint }
  match sectionFor oldSections cueSong.beginningNanosec with
  | none => ({ acc.1 with newSongs := acc.1.newSongs ++ [cueSong] }, acc.2)
  | some matching =>
    let cueSong2 := preserveUserSetData matching image cueSong
    (updateSong matching cueSong2 acc.1, acc.2 ++ [matching.id])

/-- CollectionWatcher::UpdateCueAssociatedSongs. -/
def updateCueAssociatedSongs (env : Env) (ctx : ScanCtx)
    (file path fingerprint matchingCue image : String) (a : ScanAcc) : ScanAcc :=
  if !(env.pathExists matchingCue) || !(env.cueReadable matchingCue) then a
  else
    let oldSections := env.getSongsByUrl file
    let r := (env.cueLoad matchingCue path).foldl
      (cueUpdateStep ctx image fingerprint oldSections) (a, [])
    { r.1 with deletedSongs :=
        r.1.deletedSongs ++ oldSections.filter (fun s => !(r.2.contains s.id)) }

/-- CollectionWatcher::UpdateNonCueAssociatedSong. -/
def updateNonCueAssociatedSong (env : Env) (ctx : ScanCtx)
    (file fingerprint : String) (matching : Song) (image : String)
    (cueDeleted : Bool) (a : ScanAcc) : ScanAcc :=
  let a1 :=
    if cueDeleted then
      { a with deletedSongs := a.deletedSongs ++
          (env.getSongsByUrl file).filter (fun s => !(isMetadataAndMoreEqual s matching)) }
    else a
  match env.readTags file with
  | none => a1
  | some onDisk0 =>
    let onDisk := { onDisk0 with directoryId := ctx.dirId, fingerprint := fingerprint }
    updateSong matching (preserveUserSetData matching image onDisk) a1

/-- CollectionWatcher::ScanNewFile.  Returns the produced songs and the
updated cues_processed set. -/
def scanNewFile (env : Env) (file path fingerprint matchingCue : String)
    (cuesProcessed : List String) : List Song × List String :=
  if getMtimeForCue env matchingCue != 0 then
    if cuesProcessed.contains matchingCue then ([], cuesProcessed)
    else if !(env.pathExists matchingCue) || !(env.cueReadable matchingCue) then
      ([], cuesProcessed)
    else
      let fileNfd := env.normalizeNFD file
      let songs := (env.cueLoad matchingCue path).foldl
        (fun acc cueSong0 =>
          let cueSong := { cueSong0 with fingerprint := fingerprint }
          if env.normalizeNFD cueSong.path == fileNfd then
            if env.isMediaFile file then acc ++ [cueSong] else acc
          else acc)
        []
      if songs.isEmpty then ([], cuesProcessed) else (songs, cuesProcessed ++ [matchingCue])
  else
    match env.readTags file with
    | none => ([], cuesProcessed)
    | some s => ([{ s with fingerprint := fingerprint }], cuesProcessed)

/-- The state threaded through the files_on_disk reconciliation loop of
ScanSubdirectory. -/
structure ScanState where
  filesOnDisk : List String
  cuesProcessed : List String
  albumArt : AlbumArt
  acc : ScanAcc

/-- Lines 503-572: the file has a database record at the same path.  Handles
the vanished-between-listing-and-stat race, the mtime/cue/artwork change
detection, the fingerprint recomputation and the cue/non-cue update routing,
and finally marks a previously unavailable record as readded. -/
def updateFoundByPath (env : Env) (ctx : ScanCtx) (stop : Bool)
    (path matchingCue file : String) (matchingSong : Song) (st : ScanState) :
    ScanState :=
  if !(env.pathExists file) then
    { st with filesOnDisk := st.filesOnDisk.filter (fun f => f != file),
              acc := st.acc.addToProgress 1 }
  else
    let songCueMtime := getMtimeForCue env matchingSong.cuePath
    let cueDeleted := songCueMtime == 0 && matchingSong.hasCue
    let matchingCueMtime := getMtimeForCue env matchingCue
    let cueAdded := matchingCueMtime != 0 && !matchingSong.hasCue
    let changed0 :=
      (matchingSong.mtime != max (env.mtime file) songCueMtime) || cueDeleted || cueAdded
    let r := imageForSong env stop file st.albumArt
    let image := r.1
    let art2 := r.2.1
    let changed := changed0 ||
      ((matchingSong.artAutomatic == "" && image != "") ||
       (matchingSong.artAutomatic != "" && !matchingSong.hasEmbeddedCover &&
        !(env.pathExists matchingSong.artAutomatic)))
    let missingFingerprint :=
      env.haveMusicbrainz && env.songTracking && matchingSong.fingerprint == ""
    let acc2 :=
      if ctx.ignoresMtime || changed || missingFingerprint then
        let fingerprint := computeFingerprint env file
        if !cueDeleted && (matchingSong.hasCue || cueAdded) then
          updateCueAssociatedSongs env ctx file path fingerprint matchingCue image st.acc
        else
          updateNonCueAssociatedSong env ctx file fingerprint matchingSong image cueDeleted st.acc
      else st.acc
    let acc3 :=
      if matchingSong.unavailable then
        { acc2 with readdedSongs := acc2.readdedSongs ++ [matchingSong] }
      else acc2
    { st with albumArt := art2, acc := acc3.addToProgress 1 }

/-- Lines 584-627: the file matched a database record by fingerprint.  The
old path is recorded as relocated, a pending deletion of the record is
cancelled, the record's url is moved to the new file and the update is routed
as for a path match (without a change check). -/
def updateFoundByFingerprint (env : Env) (ctx : ScanCtx) (stop : Bool)
    (path matchingCue file fingerprint : String) (found : Song) (st : ScanState) :
    ScanState :=
  let acc1 := { st.acc with filesChangedPath := st.acc.filesChangedPath ++ [found.path] }
  let acc1b :=
    if acc1.deletedSongs.contains found then
      { acc1 with deletedSongs := acc1.deletedSongs.filter (fun s => s != found) }
    else acc1
  let matchingSong := { found with path := file }
  if !(env.pathExists file) then
    { st with filesOnDisk := st.filesOnDisk.filter (fun f => f != file),
              acc := acc1b.addToProgress 1 }
  else
    let songCueMtime := getMtimeForCue env matchingSong.cuePath
    let cueDeleted := songCueMtime == 0 && matchingSong.hasCue
    let matchingCueMtime := getMtimeForCue env matchingCue
    let cueAdded := matchingCueMtime != 0 && !matchingSong.hasCue
    let r := imageForSong env stop file st.albumArt
    let image := r.1
    let art2 := r.2.1
    let acc2 :=
      if !cueDeleted && (matchingSong.hasCue || cueAdded) then
        updateCueAssociatedSongs env ctx file path fingerprint matchingCue image acc1b
      else
        updateNonCueAssociatedSong env ctx file fingerprint matchingSong image cueDeleted acc1b
    let acc3 :=
      if matchingSong.unavailable then
        { acc2 with readdedSongs := acc2.readdedSongs ++ [matchingSong] }
      else acc2
    { st with albumArt := art2, acc := acc3.addToProgress 1 }

/-- Lines 628-646: the file is new.  ScanNewFile produces its songs (cue
expansion or plain tag read); an image is chosen and the songs are filed as
new. -/
def addNewFile (env : Env) (ctx : ScanCtx) (stop : Bool)
    (path file fingerprint matchingCue : String) (st : ScanState) : ScanState :=
  let r0 := scanNewFile env file path fingerprint matchingCue st.cuesProcessed
  let songs := r0.1
  let cues2 := r0.2
  if songs.isEmpty then
    { st with cuesProcessed := cues2, acc := st.acc.addToProgress 1 }
  else
    let r := imageForSong env stop file st.albumArt
    let image := r.1
    let art2 := r.2.1
    let newOnes := songs.map (fun s0 =>
      let s1 := { s0 with directoryId := ctx.dirId }
      if s1.artAutomatic == "" then { s1 with artAutomatic := image } else s1)
    { st with cuesProcessed := cues2, albumArt := art2,
              acc := ScanAcc.addToProgress
                { st.acc with newSongs := st.acc.newSongs ++ newOnes } 1 }

/-- One iteration of the files_on_disk loop of ScanSubdirectory (lines
495-649): resolve the file against the database by path, else by fingerprint,
else treat it as new. -/
def processFile (env : Env) (ctx : ScanCtx) (stop : Bool) (path : String)
    (songsInDb : List Song) (st : ScanState) (file : String) : ScanState :=
  let matchingCue := env.noExtPart file ++ ".cue"
  match findSongByPath songsInDb file with
  | some matchingSong =>
    updateFoundByPath env ctx stop path matchingCue file matchingSong st
  | none =>
    let fingerprint := computeFingerprint env file
    match (if env.songTracking && fingerprint != "" && fingerprint != "NONE" then
             findSongByFingerprint env file fingerprint
           else none) with
    | some found =>
      updateFoundByFingerprint env ctx stop path matchingCue file fingerprint found st
    | none =>
      addNewFile env ctx stop path file fingerprint matchingCue st

/-- The accumulator of the child-enumeration loop of ScanSubdirectory (lines
451-484). -/
structure ClassifyAcc where
  myNewSubdirs : List Subdirectory
  filesOnDisk : List String
  albumArt : AlbumArt
  acc : ScanAcc

/-- One QDirIterator entry: record unseen non-hidden subdirectories, collect
image files as artwork candidates, keep content-sniffed media files, and
credit progress for everything else. -/
def classifyChild (env : Env) (ctx : ScanCtx) (ca : ClassifyAcc) (c : ChildInfo) :
    ClassifyAcc :=
  let a := { ca.acc with filesEnumerated := ca.acc.filesEnumerated + 1 }
  if c.isDir then
    let subs :=
      if !c.isHidden && !(ctx.hasSeenSubdir c.path) then
        ca.myNewSubdirs ++ [{ directoryId := -1, path := c.path, mtime := c.mtime }]
      else ca.myNewSubdirs
    { ca with myNewSubdirs := subs, acc := a.addToProgress 1 }
  else if env.isImageExt c.path then
    { ca with albumArt := artAppend ca.albumArt (dirPart c.path) c.path,
              acc := a.addToProgress 1 }
  else if env.isMediaFile c.path then
    { ca with filesOnDisk := ca.filesOnDisk ++ [c.path], acc := a }
  else
    { ca with acc := a.addToProgress 1 }

/-- The deleted-song detection after the files loop (lines 651-658): every
database record of the directory that is still available, absent from the
files left on disk and not relocated by a fingerprint match is filed as
deleted. -/
def scanDetectDeleted (songsInDb : List Song) (filesOnDisk : List String)
    (a : ScanAcc) : ScanAcc :=
  { a with deletedSongs := a.deletedSongs ++
      songsInDb.filter (fun (song : Song) => !song.unavailable &&
        !(filesOnDisk.contains song.path) &&
        !(a.filesChangedPath.contains song.path)) }

/-- Recording of the directory's own ledger entry (lines 660-675): new or
touched subdirectory record with the current mtime (0 when the directory
itself vanished, which additionally marks it for watch removal). -/
def scanRecordSubdir (env : Env) (ctx : ScanCtx) (path : String)
    (subdir : Subdirectory) (a : ScanAcc) : ScanAcc :=
  let updMtime := if env.pathExists path then env.mtime path else 0
  let updatedSubdir : Subdirectory :=
    { directoryId := ctx.dirId, path := path, mtime := updMtime }
  let a4 :=
    if subdir.directoryId == -1 then
      { a with newSubdirs := a.newSubdirs ++ [updatedSubdir] }
    else
      { a with touchedSubdirs := a.touchedSubdirs ++ [updatedSubdir] }
  if updMtime == 0 then
    { a4 with deletedSubdirs := a4.deletedSubdirs ++ [updatedSubdir] }
  else a4

/-- CollectionWatcher::ScanSubdirectory, fuelled on the recursion depth
(vanished previous subdirectories and freshly discovered subdirectories).
The stop flag is constant for the pass; when it is set, the walk returns
right after the vanished-subdirectory rescan, exactly where the first
in-loop stop check would fire. -/
def scanSubdirectory (env : Env) (stop : Bool) (ctx : ScanCtx) :
    Nat → String → Subdirectory → Nat → ScanAcc → Bool → ScanAcc
  | 0, _, _, _, a, _ => { a with fuelExhausted := true }
  | fuel + 1, path, subdir, filesCount, a, forceNoincremental =>
    if skipSymlink env path then a
    else if env.hasNoMediaFile path then a
    else
      let songsMissingFingerprint :=
        env.haveMusicbrainz && env.songTracking && ctx.hasSongsWithMissingFingerprint path
      if !ctx.ignoresMtime && !forceNoincremental && ctx.incremental &&
         subdir.mtime == env.mtime path && !songsMissingFingerprint then
        a.addToProgress filesCount
      else
        let a1 := (ctx.getImmediateSubdirs path).foldl
          (fun acc prev =>
            if !(env.pathExists prev.path) && prev.path != path then
              scanSubdirectory env stop ctx fuel prev.path prev 0 acc true
            else acc)
          a
        if stop then a1
        else
          let ca := (env.children path).foldl (classifyChild env ctx)
            { myNewSubdirs := [], filesOnDisk := [], albumArt := [], acc := a1 }
          let songsInDb := ctx.findSongsInSubdirectory path
          let st := ca.filesOnDisk.foldl (processFile env ctx stop path songsInDb)
            { filesOnDisk := ca.filesOnDisk, cuesProcessed := [],
              albumArt := ca.albumArt, acc := ca.acc }
          let a5 := scanRecordSubdir env ctx path subdir
            (scanDetectDeleted songsInDb st.filesOnDisk st.acc)
          ca.myNewSubdirs.foldl
            (fun acc nsd =>
              if stop then acc
              else scanSubdirectory env stop ctx fuel nsd.path nsd 0 acc true)
            a5

/-- The per-root loop body of CollectionWatcher::PerformScan: scan every
ledger subdirectory, stopping between directories when the stop flag is
set. -/
def performScanSubdirs (env : Env) (stop : Bool) (ctx : ScanCtx) (fuel : Nat)
    (counts : String → Nat) (a : ScanAcc) (subdirs : List Subdirectory) : ScanAcc :=
  subdirs.foldl
    (fun acc sd =>
      if stop then acc
      else scanSubdirectory env stop ctx fuel sd.path sd (counts sd.path) acc false)
    a

/-- The persistent collection state the transaction snapshots from. -/
structure DB where
  songs : List Song
  subdirs : List Subdirectory
deriving Repr

/-- Construction of a ScanTransaction's snapshot caches from the backend
(CollectionBackend::FindSongsInDirectory, SongsWithMissingFingerprint and
SubdirsInDirectory are queries by root id; a missing fingerprint is an empty
fingerprint column). -/
def mkScanCtx (db : DB) (dirId : Int) (incremental ignoreMtimes markUnavailable : Bool) :
    ScanCtx :=
  { dirId := dirId, incremental := incremental, ignoresMtime := ignoreMtimes,
    markSongsUnavailable := markUnavailable, expireUnavailableSongsDays := 60,
    cachedSongs := db.songs.filter (fun s => s.directoryId == dirId),
    cachedSongsMissingFingerprint :=
      db.songs.filter (fun s => s.directoryId == dirId && s.fingerprint == ""),
    knownSubdirs := db.subdirs.filter (fun sd => sd.directoryId == dirId) }

/-- The subdirectory list PerformScan iterates: the ledger, or the root
itself (with mtime 0) when the ledger is empty. -/
def effectiveSubdirs (ctx : ScanCtx) (dirId : Int) (dirPath : String) : List Subdirectory :=
  if ctx.knownSubdirs.isEmpty then [{ directoryId := dirId, path := dirPath, mtime := 0 }]
  else ctx.knownSubdirs

/-- One iteration of the directory loop of CollectionWatcher::PerformScan:
build the transaction, seed the progress maximum and walk the ledger. -/
def performScanDir (env : Env) (stop : Bool) (fuel : Nat) (db : DB) (dirId : Int)
    (dirPath : String) (incremental ignoreMtimes markUnavailable : Bool)
    (counts : String → Nat) : ScanCtx × ScanAcc :=
  let ctx := mkScanCtx db dirId incremental ignoreMtimes markUnavailable
  let subdirs := effectiveSubdirs ctx dirId dirPath
  let a0 := { emptyScanAcc with
    progressMax := subdirs.foldl (fun n sd => n + counts sd.path) 0 }
  (ctx, performScanSubdirs env stop ctx fuel counts a0 subdirs)

/-- All seven delta sets of a transaction are empty. -/
def allDeltasEmpty (a : ScanAcc) : Prop :=
  a.newSongs = [] ∧ a.touchedSongs = [] ∧ a.deletedSongs = [] ∧
  a.readdedSongs = [] ∧ a.newSubdirs = [] ∧ a.touchedSubdirs = [] ∧
  a.deletedSubdirs = []

/-- The scan-pass environment facts describing a song whose file has
disappeared from disk without being moved: the tag reader only ever reports
the path it was asked to read, no cue sheet resolves to the song's path, no
fingerprint query returns a record living at the song's path (the song's
content has not resurfaced elsewhere), and no directory listing contains the
song's file. -/
structure SongAbsent (env : Env) (song : Song) : Prop where
  readTags_path : ∀ f s, env.readTags f = some s → s.path = f
  cueLoad_path : ∀ c d s, s ∈ env.cueLoad c d → s.path ≠ song.path
  fingerprint_path : ∀ fp s, s ∈ env.getSongsByFingerprint fp → s.path ≠ song.path
  listing_path : ∀ d c, c ∈ env.children d → c.path ≠ song.path

/-- No record at the song's path sits in the touched set or the relocation
list of the accumulator. -/
def songUntouched (song : Song) (a : ScanAcc) : Prop :=
  (∀ s ∈ a.touchedSongs, s.path ≠ song.path) ∧
  (∀ p ∈ a.filesChangedPath, p ≠ song.path)

/-- How one scan step may evolve the accumulator as far as an absent song is
concerned: new touched records and new relocation entries never carry the
song's path, and once the song sits in the deleted set it stays there. -/
def accEvolves (song : Song) (a b : ScanAcc) : Prop :=
  (∀ s ∈ b.touchedSongs, s ∈ a.touchedSongs ∨ s.path ≠ song.path) ∧
  (∀ p ∈ b.filesChangedPath, p ∈ a.filesChangedPath ∨ p ≠ song.path) ∧
  (song ∈ a.deletedSongs → song ∈ b.deletedSongs)

/-- A trivial scan environment (empty filesystem, inert collaborators) used
as the base for concrete test instances. -/
def baseEnv : Env :=
  { watchedRoots := [], isSymlink := fun _ => false, symlinkTarget := fun p => p,
    hasNoMediaFile := fun _ => false, pathExists := fun _ => false,
    mtime := fun _ => 0, children := fun _ => [], isImageExt := fun _ => false,
    isMediaFile := fun _ => false, readTags := fun _ => none,
    createFingerprint := fun _ => "", cueReadable := fun _ => false,
    cueLoad := fun _ _ => [], normalizeNFD := fun p => p,
    getSongsByUrl := fun _ => [], getSongsByFingerprint := fun _ => [],
    noExtPart := fun p => p, imageOk := fun _ => true,
    imageW := fun _ => 0, imageH := fun _ => 0, bestImageFilters := [],
    haveMusicbrainz := false, songTracking := false }

/-- A trivial transaction snapshot (incremental, empty caches) used for
concrete test instances. -/
def baseCtx : ScanCtx :=
  { dirId := 1, incremental := true, ignoresMtime := false,
    markSongsUnavailable := true, expireUnavailableSongsDays := 60,
    cachedSongs := [], cachedSongsMissingFingerprint := [], knownSubdirs := [] }

/-- A concrete database record used for concrete test instances. -/
def testSongOld : Song :=
  { id := 7, path := "/old/x.mp3", directoryId := 1, mtime := 10,
    fingerprint := "FP", unavailable := false, hasCue := false, cuePath := "",
    artAutomatic := "", artManual := "", hasEmbeddedCover := false,
    beginningNanosec := 0, metadata := "m", userData := "u" }

/-- An environment whose backend knows testSongOld under fingerprint FP and
whose filesystem holds nothing (the old path is gone). -/
def fpEnv : Env :=
  { baseEnv with
    getSongsByFingerprint := fun fp => if fp == "FP" then [testSongOld] else [] }

/-- A one-root database whose ledger holds a single subdirectory, used for
concrete test instances. -/
def testDB : DB :=
  { songs := [], subdirs := [{ directoryId := 1, path := "/m", mtime := 0 }] }

/-- A snapshot whose cache holds exactly testSongOld, used for concrete test
instances. -/
def delCtx : ScanCtx :=
  { baseCtx with cachedSongs := [testSongOld] }

-- ===== THEOREMS =====

/-- A fold that never moves off its start stays there. -/
theorem foldl_fixed_point {α : Type _} {β : Type _} (f : α → β → α) (a : α) :
    ∀ l : List β, (∀ b ∈ l, f a b = a) → l.foldl f a = a := by
  intro l
  induction l with
  | nil => intro _; rfl
  | cons x xs ih =>
    intro h
    simp only [List.foldl_cons]
    rw [h x (List.mem_cons_self x xs)]
    exact ih (fun b hb => h b (List.mem_cons_of_mem x hb))

theorem artLookup_artSet_self (art : AlbumArt) (d : String) (v : List String) :
    artLookup (artSet art d v) d = some v := by
  induction art with
  | nil => simp [artSet, artLookup]
  | cons kv rest ih =>
    obtain ⟨k, w⟩ := kv
    simp only [artSet]
    by_cases h : (k == d)
    · simp [artLookup, h]
    · simp [artLookup, h, ih]

/-- If every candidate fails to decode or has zero pixel area, the biggest-
image loop never replaces its empty initial choice. -/
theorem pickBiggestImage_all_bad (env : Env) (stop : Bool) (images : List String)
    (h : ∀ p ∈ images, env.imageOk p = false ∨ env.imageW p * env.imageH p = 0) :
    pickBiggestImage env stop images = "" := by
  unfold pickBiggestImage
  rw [foldl_fixed_point]
  intro b hb
  rcases h b hb with hok | harea
  · cases stop <;> simp [hok]
  · cases stop <;> simp [harea]

/-- The accumulate-and-break filter loop of PickBestImage computes exactly
the spec's selection: the matches of the first preference term that matches
anything, or the unfiltered list. -/
theorem accumulateFiltered_spec (images : List String) :
    ∀ filters : List String,
      (if (accumulateFiltered images filters []).isEmpty then images
       else accumulateFiltered images filters []) = preferredCandidates filters images := by
  intro filters
  induction filters with
  | nil => simp [accumulateFiltered, preferredCandidates]
  | cons f rest ih =>
    by_cases hfil : images.filter (fun img => containsCI (fileNamePart img) f) = []
    · have hany : images.any (fun img => containsCI (fileNamePart img) f) = false := by
        rw [List.any_eq_false]
        exact List.filter_eq_nil_iff.mp hfil
      simp only [accumulateFiltered, List.nil_append, hfil, List.isEmpty_nil, if_true]
      rw [ih]
      unfold preferredCandidates
      rw [List.find?_cons_of_neg _ (by simp [hany])]
    · have hE : (images.filter (fun img => containsCI (fileNamePart img) f)).isEmpty = false := by
        cases hq : (images.filter (fun img => containsCI (fileNamePart img) f)).isEmpty
        · rfl
        · exact absurd (List.isEmpty_iff.mp hq) hfil
      have hany : images.any (fun img => containsCI (fileNamePart img) f) = true := by
        rcases List.exists_mem_of_ne_nil _ hfil with ⟨x, hx⟩
        rcases List.mem_filter.mp hx with ⟨hx1, hx2⟩
        exact List.any_eq_true.mpr ⟨x, hx1, hx2⟩
      simp only [accumulateFiltered, List.nil_append, hE, Bool.false_eq_true, if_false]
      unfold preferredCandidates
      rw [List.find?_cons_of_pos _ (by simp [hany])]

/-- Everything the spec-side selection keeps comes from the candidate
list. -/
theorem mem_preferredCandidates {filters images : List String} {x : String}
    (h : x ∈ preferredCandidates filters images) : x ∈ images := by
  unfold preferredCandidates at h
  rcases hf : filters.find? (fun f => images.any (fun img => containsCI (fileNamePart img) f)) with _ | f
  · rw [hf] at h; exact h
  · rw [hf] at h; exact (List.mem_filter.mp h).1

/-- One DirectoryChanged step keeps every root's rescan queue free of
duplicates. -/
theorem directoryChanged_nodup_step (mapping : List (String × Directory))
    (queue : Int → List String) (n : String)
    (hq : ∀ i, (queue i).Nodup) :
    ∀ i, ((directoryChanged mapping queue n) i).Nodup := by
  intro i
  unfold directoryChanged
  cases hl : assocLookup mapping n with
  | none => exact hq i
  | some dd =>
    by_cases hc : (queue dd.id).contains n
    · simp only [hc, if_true]
      exact hq i
    · have hc' : (queue dd.id).contains n = false := by
        cases hx : (queue dd.id).contains n
        · rfl
        · exact absurd hx hc
      simp only [hc', Bool.false_eq_true, if_false]
      by_cases hi : (i == dd.id)
      · simp only [hi, if_true]
        rw [List.nodup_append]
        refine ⟨hq dd.id, List.nodup_singleton n, ?_⟩
        intro x hx hx2
        rcases List.mem_singleton.mp hx2 with rfl
        have : x ∉ queue dd.id := by simpa using hc'
        exact this hx
      · have hi' : (i == dd.id) = false := by
          cases hx : (i == dd.id)
          · rfl
          · exact absurd hx hi
        simp only [hi', Bool.false_eq_true, if_false]
        exact hq i

/-- Folding any notification burst over the queues keeps them duplicate
free. -/
theorem directoryChanged_nodup_fold (mapping : List (String × Directory)) :
    ∀ (notifs : List String) (queue : Int → List String),
      (∀ i, (queue i).Nodup) →
      ∀ i, ((notifs.foldl (directoryChanged mapping) queue) i).Nodup := by
  intro notifs
  induction notifs with
  | nil =>
    intro queue hq i
    simpa using hq i
  | cons n rest ih =>
    intro queue hq
    simp only [List.foldl_cons]
    exact ih _ (directoryChanged_nodup_step mapping queue n hq)

/-- C6: the per-root rescan queue has set semantics.  Delivering a change
notification for a path that is already queued for its root leaves the queue
map unchanged, and across any sequence of notifications no root's queue ever
holds duplicate paths. -/
theorem rescanQueue_set_semantics (mapping : List (String × Directory))
    (queue : Int → List String) (s : String) (d : Directory) (notifs : List String)
    (hq : ∀ i, (queue i).Nodup)
    (hs : assocLookup mapping s = some d)
    (hmem : s ∈ queue d.id) :
    directoryChanged mapping queue s = queue ∧
    ∀ i, ((notifs.foldl (directoryChanged mapping) queue) i).Nodup := by
  constructor
  · unfold directoryChanged
    rw [hs]
    have hc : (queue d.id).contains s = true := by simpa using hmem
    simp only [hc, if_true]
  · exact directoryChanged_nodup_fold mapping notifs queue hq

/-- C6 witness: a queue already holding the path p for root 1 is untouched
by another notification for p, and queues stay duplicate free. -/
theorem rescanQueue_set_semantics_witness :
    (∀ i : Int, ((fun j : Int => if j == 1 then ["p"] else []) i).Nodup) ∧
    directoryChanged [("p", { id := 1, path := "/r" })]
      (fun j : Int => if j == 1 then ["p"] else []) "p" =
      (fun j : Int => if j == 1 then ["p"] else []) := by
  have hq : ∀ i : Int, ((fun j : Int => if j == 1 then ["p"] else []) i).Nodup := by
    intro i
    by_cases h : (i == 1)
    · simp [h]
    · have h' : (i == 1) = false := by
        cases hx : (i == 1)
        · rfl
        · exact absurd hx h
      simp [h']
  refine ⟨hq, ?_⟩
  exact (rescanQueue_set_semantics [("p", { id := 1, path := "/r" })]
    (fun j : Int => if j == 1 then ["p"] else []) "p" { id := 1, path := "/r" } []
    hq (by decide) (by simp)).1

/-- C8 counterexample: at an elapsed time of exactly 86400 seconds the
periodic check does start a scan, although 86400 does not exceed 24 hours:
the code tests duration >= 86400, not a strict inequality. -/
theorem incrementalScanCheck_boundary_counterexample :
    incrementalScanCheck 86400 0 = true ∧ ¬ ((86400 : Int) - 0 > 86400) := by
  constructor
  · decide
  · decide

/-- C8 amended: the periodic (daily) check starts an incremental scan if and
only if the time elapsed since the last scan is at least 24 hours (86400
seconds, inclusive). -/
theorem incrementalScanCheck_iff_at_least_day (nowSecs lastScanTime : Int) :
    incrementalScanCheck nowSecs lastScanTime = true ↔
      nowSecs - lastScanTime ≥ 86400 := by
  simp [incrementalScanCheck]

/-- C1: when the global stop flag is set at destruction, a ScanTransaction
emits no delta notification at all (the task is merely closed); when it is
not set, destruction flushes the accumulated deltas as one
CommitNewOrUpdatedSongs batch. -/
theorem scanTransaction_stop_discards (monitor dirWatched : Bool)
    (ctx : ScanCtx) (a : ScanAcc) :
    (destructScanTransaction true monitor dirWatched ctx a).filter isDeltaEvent = [] ∧
    destructScanTransaction false monitor dirWatched ctx a =
      commitNewOrUpdatedSongs monitor dirWatched ctx a ++ [WatcherEvent.taskFinished] := by
  constructor
  · rfl
  · rfl

/-- C4: FindSongByFingerprint only accepts a database record whose
fingerprint is the file's fingerprint (the backend query returns exactly the
records with that fingerprint) and whose previously recorded path either is
the new file's path or no longer exists on disk; a record whose old path is
still occupied by a different existing file is never returned. -/
theorem findSongByFingerprint_reassignment_guard (env : Env)
    (file fingerprint : String) (s : Song)
    (hdb : ∀ t ∈ env.getSongsByFingerprint fingerprint, t.fingerprint = fingerprint)
    (hfound : findSongByFingerprint env file fingerprint = some s) :
    s.fingerprint = fingerprint ∧ (s.path = file ∨ env.pathExists s.path = false) := by
  unfold findSongByFingerprint at hfound
  have hmem := List.mem_of_find?_eq_some hfound
  have hpred := List.find?_some hfound
  refine ⟨hdb s hmem, ?_⟩
  rcases Bool.or_eq_true_iff.mp hpred with h | h
  · left
    exact (eq_of_beq h).symm
  · right
    cases hx : env.pathExists s.path
    · rfl
    · rw [hx] at h
      simp at h

/-- C4 witness: a record whose old path is gone is reassigned to the new
path, with its fingerprint equal to the file's. -/
theorem findSongByFingerprint_reassignment_guard_witness :
    (∀ t ∈ fpEnv.getSongsByFingerprint "FP", t.fingerprint = "FP") ∧
    findSongByFingerprint fpEnv "/new/x.mp3" "FP" = some testSongOld ∧
    (testSongOld.fingerprint = "FP" ∧
     (testSongOld.path = "/new/x.mp3" ∨ fpEnv.pathExists testSongOld.path = false)) := by
  refine ⟨by decide, by decide, ?_⟩
  exact findSongByFingerprint_reassignment_guard fpEnv "/new/x.mp3" "FP" testSongOld
    (by decide) (by decide)

/-- C5: PickBestImage tries the filename-substring preferences in order,
stops at the first term with at least one case-insensitive match, keeps
exactly the accumulated matches (falling back to the unfiltered list when no
term matches anything), and among those returns the decoded image of largest
pixel area; concretely, with images cover_small.jpg (10 by 10) and
front_big.jpg (100 by 100) and preference order [front, cover] it returns
front_big.jpg. -/
theorem pickBestImage_preference_policy :
    (∀ (env : Env) (stop : Bool) (filters images : List String),
       pickBestImage env stop filters images =
         pickBiggestImage env stop (preferredCandidates filters images)) ∧
    pickBestImage
      { baseEnv with
        imageW := fun p => if p == "front_big.jpg" then 100 else 10,
        imageH := fun p => if p == "front_big.jpg" then 100 else 10 }
      false ["front", "cover"] ["cover_small.jpg", "front_big.jpg"] =
      "front_big.jpg" := by
  constructor
  · intro env stop filters images
    show pickBiggestImage env stop
        (if (accumulateFiltered images filters []).isEmpty then images
         else accumulateFiltered images filters []) =
      pickBiggestImage env stop (preferredCandidates filters images)
    rw [accumulateFiltered_spec]
  · decide

/-- C10: when every candidate image in a directory fails to decode or has
zero pixel area, PickBestImage returns the empty path rather than any
element of the list, so the songs of that directory get no automatic
artwork. -/
theorem pickBestImage_all_undecodable (env : Env) (stop : Bool)
    (filters images : List String)
    (h : ∀ p ∈ images, env.imageOk p = false ∨ env.imageW p * env.imageH p = 0) :
    pickBestImage env stop filters images = "" := by
  have heq : pickBestImage env stop filters images =
      pickBiggestImage env stop (preferredCandidates filters images) := by
    show pickBiggestImage env stop
        (if (accumulateFiltered images filters []).isEmpty then images
         else accumulateFiltered images filters []) =
      pickBiggestImage env stop (preferredCandidates filters images)
    rw [accumulateFiltered_spec]
  rw [heq]
  exact pickBiggestImage_all_bad env stop _
    (fun p hp => h p (mem_preferredCandidates hp))

/-- C10 witness: a non-empty candidate list in which nothing decodes yields
the empty path. -/
theorem pickBestImage_all_undecodable_witness :
    (∀ p ∈ ["a.jpg", "b.jpg"],
       ({ baseEnv with imageOk := fun _ => false } : Env).imageOk p = false ∨
       ({ baseEnv with imageOk := fun _ => false } : Env).imageW p *
         ({ baseEnv with imageOk := fun _ => false } : Env).imageH p = 0) ∧
    pickBestImage { baseEnv with imageOk := fun _ => false } false
      ["front"] ["a.jpg", "b.jpg"] = "" := by
  refine ⟨by decide, ?_⟩
  exact pickBestImage_all_undecodable _ false ["front"] ["a.jpg", "b.jpg"] (by decide)

/-- C9: the first ImageForSong query for a directory holding more than one
candidate image runs PickBestImage once and collapses the directory's
candidate list to the single chosen image; any later query for a file of the
same directory returns exactly that URL, leaves the map unchanged and does
not run the selection again. -/
theorem imageForSong_collapses_selection (env : Env) (stop : Bool)
    (art : AlbumArt) (p p2 : String) (imgs : List String)
    (hl : artLookup art (dirPart p) = some imgs)
    (h2 : 2 ≤ imgs.length)
    (hp2 : dirPart p2 = dirPart p) :
    (imageForSong env stop p art).1 =
      pickBestImage env stop env.bestImageFilters imgs ∧
    (imageForSong env stop p art).2.2 = true ∧
    imageForSong env stop p2 (imageForSong env stop p art).2.1 =
      ((imageForSong env stop p art).1, (imageForSong env stop p art).2.1, false) := by
  have hne : (imgs.length == 1) = false := by
    have h1 : imgs.length ≠ 1 := by omega
    exact beq_eq_false_iff_ne.mpr h1
  have hmain : imageForSong env stop p art =
      (pickBestImage env stop env.bestImageFilters imgs,
       artSet art (dirPart p) [pickBestImage env stop env.bestImageFilters imgs],
       true) := by
    simp [imageForSong, hl, hne]
  rw [hmain]
  refine ⟨rfl, rfl, ?_⟩
  simp [imageForSong, hp2, artLookup_artSet_self]

/-- C9 witness: two candidate images in directory d, queried for two songs of
d. -/
theorem imageForSong_collapses_selection_witness :
    artLookup [("d", ["a.jpg", "b.jpg"])] (dirPart "d/x.mp3") =
      some ["a.jpg", "b.jpg"] ∧
    2 ≤ (["a.jpg", "b.jpg"] : List String).length ∧
    dirPart "d/y.mp3" = dirPart "d/x.mp3" ∧
    imageForSong baseEnv false "d/y.mp3"
        (imageForSong baseEnv false "d/x.mp3" [("d", ["a.jpg", "b.jpg"])]).2.1 =
      ((imageForSong baseEnv false "d/x.mp3" [("d", ["a.jpg", "b.jpg"])]).1,
       (imageForSong baseEnv false "d/x.mp3" [("d", ["a.jpg", "b.jpg"])]).2.1,
       false) := by
  refine ⟨by decide, by decide, by decide, ?_⟩
  exact (imageForSong_collapses_selection baseEnv false
    [("d", ["a.jpg", "b.jpg"])] "d/x.mp3" "d/y.mp3" ["a.jpg", "b.jpg"]
    (by decide) (by decide) (by decide)).2.2

/-- A directory that is a symlink into a watched root is skipped without any
effect on the transaction. -/
theorem scanSubdirectory_skip_symlink (env : Env) (stop : Bool) (ctx : ScanCtx)
    (fuel : Nat) (path : String) (subdir : Subdirectory) (fc : Nat) (a : ScanAcc)
    (force : Bool) (h : skipSymlink env path = true) :
    scanSubdirectory env stop ctx (fuel + 1) path subdir fc a force = a := by
  simp [scanSubdirectory, h]

/-- A directory holding a .nomedia or .nomusic marker is skipped without any
effect on the transaction. -/
theorem scanSubdirectory_skip_nomedia (env : Env) (stop : Bool) (ctx : ScanCtx)
    (fuel : Nat) (path : String) (subdir : Subdirectory) (fc : Nat) (a : ScanAcc)
    (force : Bool) (h1 : skipSymlink env path = false)
    (h2 : env.hasNoMediaFile path = true) :
    scanSubdirectory env stop ctx (fuel + 1) path subdir fc a force = a := by
  simp [scanSubdirectory, h1, h2]

/-- The unchanged-directory shortcut: an incremental, non-mtime-ignoring walk
of a directory whose ledger mtime equals the filesystem mtime, with the
missing-fingerprint test negative, only credits the estimated file count. -/
theorem scanSubdirectory_shortcut (env : Env) (stop : Bool) (ctx : ScanCtx)
    (fuel : Nat) (path : String) (subdir : Subdirectory) (fc : Nat) (a : ScanAcc)
    (h1 : skipSymlink env path = false)
    (h2 : env.hasNoMediaFile path = false)
    (h3 : ctx.ignoresMtime = false)
    (h4 : ctx.incremental = true)
    (h5 : subdir.mtime = env.mtime path)
    (h6 : (env.haveMusicbrainz && env.songTracking &&
           ctx.hasSongsWithMissingFingerprint path) = false) :
    scanSubdirectory env stop ctx (fuel + 1) path subdir fc a false =
      a.addToProgress fc := by
  simp [scanSubdirectory, h1, h2, h3, h4, h5, h6]

/-- C2: on an incremental pass with mtime checks active, a directory whose
current filesystem mtime equals the mtime recorded in its Subdirectory ledger
entry and which has no songs missing a fingerprint is not walked:
ScanSubdirectory credits the estimated file count to progress and returns,
leaving every delta set, the relocation list and the files-enumerated counter
exactly as they were. -/
theorem scanSubdirectory_unchanged_directory (env : Env) (stop : Bool)
    (ctx : ScanCtx) (fuel : Nat) (path : String) (subdir : Subdirectory)
    (filesCount : Nat) (a : ScanAcc)
    (hsym : skipSymlink env path = false)
    (hnm : env.hasNoMediaFile path = false)
    (hig : ctx.ignoresMtime = false)
    (hinc : ctx.incremental = true)
    (hmt : subdir.mtime = env.mtime path)
    (hfp : ctx.hasSongsWithMissingFingerprint path = false) :
    scanSubdirectory env stop ctx (fuel + 1) path subdir filesCount a false =
      { a with progress := a.progress + filesCount } := by
  have h6 : (env.haveMusicbrainz && env.songTracking &&
      ctx.hasSongsWithMissingFingerprint path) = false := by
    simp [hfp]
  exact scanSubdirectory_shortcut env stop ctx fuel path subdir filesCount a
    hsym hnm hig hinc hmt h6

/-- C2 witness: an unchanged directory under the trivial incremental
transaction is credited 4 progress units and nothing else happens. -/
theorem scanSubdirectory_unchanged_directory_witness :
    (skipSymlink baseEnv "/m" = false ∧
     baseEnv.hasNoMediaFile "/m" = false ∧
     baseCtx.ignoresMtime = false ∧
     baseCtx.incremental = true ∧
     ({ directoryId := 1, path := "/m", mtime := 0 } : Subdirectory).mtime =
       baseEnv.mtime "/m" ∧
     baseCtx.hasSongsWithMissingFingerprint "/m" = false) ∧
    scanSubdirectory baseEnv false baseCtx 1 "/m"
        { directoryId := 1, path := "/m", mtime := 0 } 4 emptyScanAcc false =
      { emptyScanAcc with progress := emptyScanAcc.progress + 4 } := by
  refine ⟨⟨by decide, by decide, by decide, by decide, by decide, by decide⟩, ?_⟩
  exact scanSubdirectory_unchanged_directory baseEnv false baseCtx 0 "/m"
    { directoryId := 1, path := "/m", mtime := 0 } 4 emptyScanAcc
    (by decide) (by decide) (by decide) (by decide) (by decide) (by decide)

/-- Emptying helper: a transaction whose delta sets are all empty commits no
delta notification (only UpdateLastSeen and watch bookkeeping remain, and
with nothing recorded there is nothing to watch either). -/
theorem commit_no_deltas_of_empty (monitor dirWatched : Bool) (ctx : ScanCtx)
    (a : ScanAcc) (h : allDeltasEmpty a) :
    (commitNewOrUpdatedSongs monitor dirWatched ctx a).filter isDeltaEvent = [] := by
  obtain ⟨h1, h2, h3, h4, h5, h6, h7⟩ := h
  cases monitor <;>
    simp [commitNewOrUpdatedSongs, h1, h2, h3, h4, h5, h6, h7, isDeltaEvent]

/-- The incremental walk over a ledger whose every entry is skipped (symlink
or no-media marker) or unchanged (ledger mtime equals filesystem mtime,
missing-fingerprint test negative) never adds a delta. -/
theorem performScanSubdirs_unchanged (env : Env) (ctx : ScanCtx) (fuel : Nat)
    (counts : String → Nat)
    (hig : ctx.ignoresMtime = false) (hinc : ctx.incremental = true) :
    ∀ (subdirs : List Subdirectory) (a : ScanAcc),
      (∀ sd ∈ subdirs,
        skipSymlink env sd.path = true ∨ env.hasNoMediaFile sd.path = true ∨
        (sd.mtime = env.mtime sd.path ∧
         (env.haveMusicbrainz && env.songTracking &&
          ctx.hasSongsWithMissingFingerprint sd.path) = false)) →
      allDeltasEmpty a →
      allDeltasEmpty (performScanSubdirs env false ctx fuel counts a subdirs) := by
  intro subdirs
  induction subdirs with
  | nil =>
    intro a _ h
    simpa [performScanSubdirs] using h
  | cons sd rest ih =>
    intro a hall hempty
    have hstep : allDeltasEmpty
        (scanSubdirectory env false ctx fuel sd.path sd (counts sd.path) a false) := by
      cases fuel with
      | zero =>
        simpa [scanSubdirectory, allDeltasEmpty] using hempty
      | succ g =>
        by_cases hsym : skipSymlink env sd.path = true
        · rw [scanSubdirectory_skip_symlink env false ctx g sd.path sd (counts sd.path)
            a false hsym]
          exact hempty
        · have hsf : skipSymlink env sd.path = false := by
            cases hx : skipSymlink env sd.path
            · rfl
            · exact absurd hx hsym
          by_cases hnm : env.hasNoMediaFile sd.path = true
          · rw [scanSubdirectory_skip_nomedia env false ctx g sd.path sd (counts sd.path)
              a false hsf hnm]
            exact hempty
          · have hnf : env.hasNoMediaFile sd.path = false := by
              cases hx : env.hasNoMediaFile sd.path
              · rfl
              · exact absurd hx hnm
            rcases hall sd (List.mem_cons_self sd rest) with h | h | ⟨h5, h6⟩
            · exact absurd h hsym
            · exact absurd h hnm
            · rw [scanSubdirectory_shortcut env false ctx g sd.path sd (counts sd.path)
                a hsf hnf hig hinc h5 h6]
              simpa [ScanAcc.addToProgress, allDeltasEmpty] using hempty
    exact ih (scanSubdirectory env false ctx fuel sd.path sd (counts sd.path) a false)
      (fun sd2 h2 => hall sd2 (List.mem_cons_of_mem sd h2)) hstep

/-- C7: an incremental PerformScan pass over a root whose ledger agrees with
the (unchanged) filesystem -- every ledger subdirectory is either skipped
outright or has its recorded mtime equal to the current filesystem mtime with
no fingerprint-missing songs -- produces a transaction with all seven delta
sets empty, and committing it emits no delta notification.  This is the state
in which a first incremental scan leaves the ledger when the filesystem does
not change, so the second of two consecutive scans is a no-op. -/
theorem second_incremental_scan_empty (env : Env) (fuel : Nat) (db : DB)
    (dirId : Int) (dirPath : String) (markUnavailable monitor dirWatched : Bool)
    (counts : String → Nat)
    (hall : ∀ sd ∈ effectiveSubdirs (mkScanCtx db dirId true false markUnavailable)
        dirId dirPath,
      skipSymlink env sd.path = true ∨ env.hasNoMediaFile sd.path = true ∨
      (sd.mtime = env.mtime sd.path ∧
       (env.haveMusicbrainz && env.songTracking &&
        (mkScanCtx db dirId true false markUnavailable).hasSongsWithMissingFingerprint
          sd.path) = false)) :
    allDeltasEmpty
      (performScanDir env false fuel db dirId dirPath true false markUnavailable counts).2 ∧
    ((commitNewOrUpdatedSongs monitor dirWatched
        (performScanDir env false fuel db dirId dirPath true false markUnavailable counts).1
        (performScanDir env false fuel db dirId dirPath true false markUnavailable counts).2).filter
      isDeltaEvent) = [] := by
  have hempty : allDeltasEmpty
      { emptyScanAcc with
        progressMax :=
          (effectiveSubdirs (mkScanCtx db dirId true false markUnavailable) dirId
            dirPath).foldl (fun n sd => n + counts sd.path) 0 } := by
    simp [allDeltasEmpty, emptyScanAcc]
  have hmain := performScanSubdirs_unchanged env
    (mkScanCtx db dirId true false markUnavailable) fuel counts rfl rfl
    (effectiveSubdirs (mkScanCtx db dirId true false markUnavailable) dirId dirPath)
    _ hall hempty
  refine ⟨hmain, ?_⟩
  exact commit_no_deltas_of_empty monitor dirWatched _ _ hmain

/-- C7 witness: the trivial environment, a ledger with one unchanged
subdirectory. -/
theorem second_incremental_scan_empty_witness :
    (∀ sd ∈ effectiveSubdirs (mkScanCtx testDB 1 true false true) 1 "/m",
      skipSymlink baseEnv sd.path = true ∨ baseEnv.hasNoMediaFile sd.path = true ∨
      (sd.mtime = baseEnv.mtime sd.path ∧
       (baseEnv.haveMusicbrainz && baseEnv.songTracking &&
        (mkScanCtx testDB 1 true false true).hasSongsWithMissingFingerprint
          sd.path) = false)) ∧
    allDeltasEmpty
      (performScanDir baseEnv false 3 testDB 1 "/m" true false true (fun _ => 2)).2 := by
  refine ⟨by decide, ?_⟩
  exact (second_incremental_scan_empty baseEnv 3 testDB 1 "/m" true true true
    (fun _ => 2) (by decide)).1

theorem accEvolves_refl (song : Song) (a : ScanAcc) : accEvolves song a a :=
  ⟨fun _ hs => Or.inl hs, fun _ hp => Or.inl hp, id⟩

theorem accEvolves_trans (song : Song) {a b c : ScanAcc}
    (h1 : accEvolves song a b) (h2 : accEvolves song b c) : accEvolves song a c := by
  obtain ⟨t1, f1, d1⟩ := h1
  obtain ⟨t2, f2, d2⟩ := h2
  refine ⟨?_, ?_, fun h => d2 (d1 h)⟩
  · intro s hs
    rcases t2 s hs with h | h
    · exact t1 s h
    · exact Or.inr h
  · intro p hp
    rcases f2 p hp with h | h
    · exact f1 p h
    · exact Or.inr h

/-- A step that leaves the touched set, the relocation list and the deleted
set untouched evolves the accumulator. -/
theorem accEvolves_of_parts (song : Song) (a b : ScanAcc)
    (ht : b.touchedSongs = a.touchedSongs)
    (hf : b.filesChangedPath = a.filesChangedPath)
    (hd : b.deletedSongs = a.deletedSongs) : accEvolves song a b := by
  refine ⟨?_, ?_, ?_⟩
  · intro s hs
    rw [ht] at hs
    exact Or.inl hs
  · intro p hp
    rw [hf] at hp
    exact Or.inl hp
  · intro h
    rw [hd]
    exact h

theorem accEvolves_touched_append (song out : Song) (a : ScanAcc)
    (hout : out.path ≠ song.path) :
    accEvolves song a { a with touchedSongs := a.touchedSongs ++ [out] } := by
  refine ⟨?_, fun p hp => Or.inl hp, fun h => h⟩
  intro s hs
  rcases List.mem_append.mp hs with h | h
  · exact Or.inl h
  · rcases List.mem_singleton.mp h with rfl
    exact Or.inr hout

theorem accEvolves_fcp_append (song : Song) (a : ScanAcc) (p0 : String)
    (hp0 : p0 ≠ song.path) :
    accEvolves song a { a with filesChangedPath := a.filesChangedPath ++ [p0] } := by
  refine ⟨fun s hs => Or.inl hs, ?_, fun h => h⟩
  intro p hp
  rcases List.mem_append.mp hp with h | h
  · exact Or.inl h
  · rcases List.mem_singleton.mp h with rfl
    exact Or.inr hp0

theorem accEvolves_deleted_append (song : Song) (a : ScanAcc) (l : List Song) :
    accEvolves song a { a with deletedSongs := a.deletedSongs ++ l } :=
  ⟨fun _ hs => Or.inl hs, fun _ hp => Or.inl hp,
   fun h => List.mem_append.mpr (Or.inl h)⟩

theorem accEvolves_deleted_filter (song found : Song) (a : ScanAcc)
    (hf : found.path ≠ song.path) :
    accEvolves song a
      { a with deletedSongs := a.deletedSongs.filter (fun s => s != found) } := by
  refine ⟨fun s hs => Or.inl hs, fun p hp => Or.inl hp, ?_⟩
  intro h
  refine List.mem_filter.mpr ⟨h, ?_⟩
  have hne : song ≠ found := fun he => hf (by rw [he])
  exact bne_iff_ne.mpr hne

/-- A fold whose every step evolves the (projected) accumulator evolves it
overall. -/
theorem foldl_evolves_proj {α : Type _} {β : Type _} (song : Song)
    (π : α → ScanAcc) {f : α → β → α} :
    ∀ {l : List β} {x : α},
      (∀ y b, b ∈ l → accEvolves song (π y) (π (f y b))) →
      accEvolves song (π x) (π (l.foldl f x)) := by
  intro l
  induction l with
  | nil =>
    intro x _
    exact accEvolves_refl song (π x)
  | cons b rest ih =>
    intro x hstep
    simp only [List.foldl_cons]
    exact accEvolves_trans song (hstep x b (List.mem_cons_self b rest))
      (ih (fun y c hc => hstep y c (List.mem_cons_of_mem b hc)))

theorem preserveUserSetData_path (m : Song) (img : String) (o : Song) :
    (preserveUserSetData m img o).path = o.path := by
  cases h : o.hasEmbeddedCover <;> simp [preserveUserSetData, h]

theorem updateSong_evolves (song m out : Song) (a : ScanAcc)
    (hout : out.path ≠ song.path) :
    accEvolves song a (updateSong m out a) := by
  unfold updateSong
  split_ifs <;>
    first
      | exact accEvolves_of_parts song a _ rfl rfl rfl
      | exact accEvolves_touched_append song out a hout

theorem scanDetectDeleted_evolves (song : Song) (s : List Song)
    (f : List String) (a : ScanAcc) :
    accEvolves song a (scanDetectDeleted s f a) :=
  accEvolves_deleted_append song a _

theorem scanRecordSubdir_evolves (song : Song) (env : Env) (ctx : ScanCtx)
    (path : String) (subdir : Subdirectory) (a : ScanAcc) :
    accEvolves song a (scanRecordSubdir env ctx path subdir a) := by
  unfold scanRecordSubdir
  dsimp only
  split_ifs <;> exact accEvolves_of_parts song a _ rfl rfl rfl

theorem scanRecordSubdir_deletedSongs (env : Env) (ctx : ScanCtx)
    (path : String) (subdir : Subdirectory) (a : ScanAcc) :
    (scanRecordSubdir env ctx path subdir a).deletedSongs = a.deletedSongs := by
  unfold scanRecordSubdir
  dsimp only
  split_ifs <;> rfl

/-- The record a deleted-from-disk song earns in scanDetectDeleted. -/
theorem scanDetectDeleted_mem (song : Song) (s : List Song) (f : List String)
    (a : ScanAcc) (h1 : song ∈ s) (h2 : song.unavailable = false)
    (h3 : song.path ∉ f) (h4 : song.path ∉ a.filesChangedPath) :
    song ∈ (scanDetectDeleted s f a).deletedSongs := by
  unfold scanDetectDeleted
  refine List.mem_append.mpr (Or.inr ?_)
  refine List.mem_filter.mpr ⟨h1, ?_⟩
  simp [h2, h3, h4]

theorem classifyChild_acc_evolves (song : Song) (env : Env) (ctx : ScanCtx)
    (ca : ClassifyAcc) (c : ChildInfo) :
    accEvolves song ca.acc (classifyChild env ctx ca c).acc := by
  unfold classifyChild
  split_ifs <;> exact accEvolves_of_parts song ca.acc _ rfl rfl rfl

theorem accEvolves_addToProgress (song : Song) (a : ScanAcc) (n : Nat) :
    accEvolves song a (a.addToProgress n) :=
  accEvolves_of_parts song a _ rfl rfl rfl

theorem accEvolves_readded (song m : Song) (a : ScanAcc) :
    accEvolves song a { a with readdedSongs := a.readdedSongs ++ [m] } :=
  accEvolves_of_parts song a _ rfl rfl rfl

theorem accEvolves_ite (song : Song) (a : ScanAcc) (c : Prop) [Decidable c]
    {x y : ScanAcc} (hx : accEvolves song a x) (hy : accEvolves song a y) :
    accEvolves song a (if c then x else y) := by
  split_ifs
  · exact hx
  · exact hy

theorem cueUpdateStep_evolves (song : Song) (ctx : ScanCtx)
    (image fingerprint : String) (oldSections : List Song)
    (acc : ScanAcc × List Int) (cueSong0 : Song)
    (hpath : cueSong0.path ≠ song.path) :
    accEvolves song acc.1
      (cueUpdateStep ctx image fingerprint oldSections acc cueSong0).1 := by
  unfold cueUpdateStep
  dsimp only
  cases hsec : sectionFor oldSections cueSong0.beginningNanosec with
  | none => exact accEvolves_of_parts song acc.1 _ rfl rfl rfl
  | some matching =>
    apply updateSong_evolves
    rw [preserveUserSetData_path]
    exact hpath

theorem updateCueAssociatedSongs_evolves (song : Song) (env : Env) (ctx : ScanCtx)
    (hcue : ∀ c d s, s ∈ env.cueLoad c d → s.path ≠ song.path)
    (file path fingerprint matchingCue image : String) (a : ScanAcc) :
    accEvolves song a
      (updateCueAssociatedSongs env ctx file path fingerprint matchingCue image a) := by
  unfold updateCueAssociatedSongs
  split_ifs with hr
  · exact accEvolves_refl song a
  · dsimp only
    refine accEvolves_trans song ?_ (accEvolves_deleted_append song _ _)
    exact foldl_evolves_proj song Prod.fst
      (fun y b hb => cueUpdateStep_evolves song ctx image fingerprint _ y b
        (hcue matchingCue path b hb))

theorem updateNonCueAssociatedSong_evolves (song : Song) (env : Env) (ctx : ScanCtx)
    (hread : ∀ f s, env.readTags f = some s → s.path = f)
    (file fingerprint : String) (hfile : file ≠ song.path) (matching : Song)
    (image : String) (cueDeleted : Bool) (a : ScanAcc) :
    accEvolves song a
      (updateNonCueAssociatedSong env ctx file fingerprint matching image cueDeleted a) := by
  unfold updateNonCueAssociatedSong
  have h1 : accEvolves song a
      (if cueDeleted then
        { a with deletedSongs := a.deletedSongs ++
            (env.getSongsByUrl file).filter (fun s => !(isMetadataAndMoreEqual s matching)) }
       else a) := by
    split_ifs
    · exact accEvolves_deleted_append song a _
    · exact accEvolves_refl song a
  cases hr : env.readTags file with
  | none =>
    exact h1
  | some onDisk0 =>
    refine accEvolves_trans song h1 ?_
    apply updateSong_evolves
    rw [preserveUserSetData_path]
    have hp := hread file onDisk0 hr
    show onDisk0.path ≠ song.path
    rw [hp]
    exact hfile

theorem updateFoundByPath_evolves (song : Song) (env : Env) (ctx : ScanCtx)
    (stop : Bool) (path matchingCue file : String) (matchingSong : Song)
    (st : ScanState) (henv : SongAbsent env song) (hfile : file ≠ song.path) :
    accEvolves song st.acc
      (updateFoundByPath env ctx stop path matchingCue file matchingSong st).acc := by
  unfold updateFoundByPath
  dsimp only
  by_cases hex : env.pathExists file = true
  · rw [if_neg (by simp [hex])]
    refine accEvolves_trans song ?_ (accEvolves_addToProgress song _ 1)
    refine accEvolves_ite song st.acc _ ?_ ?_
    · refine accEvolves_trans song ?_ (accEvolves_readded song _ _)
      refine accEvolves_ite song st.acc _
        (accEvolves_ite song st.acc _ ?_ ?_) (accEvolves_refl song st.acc)
      · exact updateCueAssociatedSongs_evolves song env ctx henv.cueLoad_path _ _ _ _ _ st.acc
      · exact updateNonCueAssociatedSong_evolves song env ctx henv.readTags_path
          _ _ hfile _ _ _ st.acc
    · refine accEvolves_ite song st.acc _
        (accEvolves_ite song st.acc _ ?_ ?_) (accEvolves_refl song st.acc)
      · exact updateCueAssociatedSongs_evolves song env ctx henv.cueLoad_path _ _ _ _ _ st.acc
      · exact updateNonCueAssociatedSong_evolves song env ctx henv.readTags_path
          _ _ hfile _ _ _ st.acc
  · have hexf : env.pathExists file = false := by
      cases hx : env.pathExists file
      · rfl
      · exact absurd hx hex
    rw [if_pos (by simp [hexf])]
    exact accEvolves_of_parts song st.acc _ rfl rfl rfl

theorem updateFoundByFingerprint_evolves (song : Song) (env : Env) (ctx : ScanCtx)
    (stop : Bool) (path matchingCue file fingerprint : String) (found : Song)
    (st : ScanState) (henv : SongAbsent env song) (hfile : file ≠ song.path)
    (hfp : found.path ≠ song.path) :
    accEvolves song st.acc
      (updateFoundByFingerprint env ctx stop path matchingCue file fingerprint found st).acc := by
  unfold updateFoundByFingerprint
  dsimp only
  have h1 : accEvolves song st.acc
      { st.acc with filesChangedPath := st.acc.filesChangedPath ++ [found.path] } :=
    accEvolves_fcp_append song st.acc found.path hfp
  have h1b : accEvolves song st.acc
      (if ({ st.acc with filesChangedPath := st.acc.filesChangedPath ++ [found.path] }
            : ScanAcc).deletedSongs.contains found then
        { { st.acc with filesChangedPath := st.acc.filesChangedPath ++ [found.path] } with
          deletedSongs :=
            ({ st.acc with filesChangedPath := st.acc.filesChangedPath ++ [found.path] }
              : ScanAcc).deletedSongs.filter (fun s => s != found) }
       else { st.acc with filesChangedPath := st.acc.filesChangedPath ++ [found.path] }) := by
    split_ifs
    · exact accEvolves_trans song h1 (accEvolves_deleted_filter song found _ hfp)
    · exact h1
  by_cases hex : env.pathExists file = true
  · rw [if_neg (by simp [hex])]
    refine accEvolves_trans song ?_ (accEvolves_addToProgress song _ 1)
    refine accEvolves_ite song st.acc _ ?_ ?_
    · refine accEvolves_trans song ?_ (accEvolves_readded song _ _)
      refine accEvolves_ite song st.acc _ ?_ ?_
      · exact accEvolves_trans song h1b
          (updateCueAssociatedSongs_evolves song env ctx henv.cueLoad_path _ _ _ _ _ _)
      · exact accEvolves_trans song h1b
          (updateNonCueAssociatedSong_evolves song env ctx henv.readTags_path
            _ _ hfile _ _ _ _)
    · refine accEvolves_ite song st.acc _ ?_ ?_
      · exact accEvolves_trans song h1b
          (updateCueAssociatedSongs_evolves song env ctx henv.cueLoad_path _ _ _ _ _ _)
      · exact accEvolves_trans song h1b
          (updateNonCueAssociatedSong_evolves song env ctx henv.readTags_path
            _ _ hfile _ _ _ _)
  · have hexf : env.pathExists file = false := by
      cases hx : env.pathExists file
      · rfl
      · exact absurd hx hex
    rw [if_pos (by simp [hexf])]
    exact accEvolves_trans song h1b (accEvolves_addToProgress song _ 1)

theorem addNewFile_evolves (song : Song) (env : Env) (ctx : ScanCtx) (stop : Bool)
    (path file fingerprint matchingCue : String) (st : ScanState) :
    accEvolves song st.acc
      (addNewFile env ctx stop path file fingerprint matchingCue st).acc := by
  unfold addNewFile
  dsimp only
  split_ifs
  · exact accEvolves_of_parts song st.acc _ rfl rfl rfl
  · exact accEvolves_of_parts song st.acc _ rfl rfl rfl

theorem processFile_evolves (song : Song) (env : Env) (ctx : ScanCtx) (stop : Bool)
    (path : String) (songsInDb : List Song) (st : ScanState) (file : String)
    (henv : SongAbsent env song) (hfile : file ≠ song.path) :
    accEvolves song st.acc (processFile env ctx stop path songsInDb st file).acc := by
  unfold processFile
  dsimp only
  cases hm : findSongByPath songsInDb file with
  | some matchingSong =>
    exact updateFoundByPath_evolves song env ctx stop path _ file matchingSong st henv hfile
  | none =>
    cases hm2 : (if env.songTracking && computeFingerprint env file != "" &&
          computeFingerprint env file != "NONE" then
        findSongByFingerprint env file (computeFingerprint env file)
      else none) with
    | some found =>
      have hfound : findSongByFingerprint env file (computeFingerprint env file) =
          some found := by
        by_cases hc : (env.songTracking && computeFingerprint env file != "" &&
            computeFingerprint env file != "NONE") = true
        · rwa [if_pos hc] at hm2
        · rw [if_neg hc] at hm2
          cases hm2
      have hmem : found ∈ env.getSongsByFingerprint (computeFingerprint env file) := by
        unfold findSongByFingerprint at hfound
        exact List.mem_of_find?_eq_some hfound
      exact updateFoundByFingerprint_evolves song env ctx stop path _ file _ found st
        henv hfile (henv.fingerprint_path _ found hmem)
    | none =>
      exact addNewFile_evolves song env ctx stop path file _ _ st

/-- A file kept by one classification step is either inherited or the path of
the classified child. -/
theorem classifyChild_filesOnDisk (env : Env) (ctx : ScanCtx) (ca : ClassifyAcc)
    (c : ChildInfo) (f : String)
    (h : f ∈ (classifyChild env ctx ca c).filesOnDisk) :
    f ∈ ca.filesOnDisk ∨ f = c.path := by
  unfold classifyChild at h
  dsimp only at h
  split_ifs at h <;>
    first
      | exact Or.inl h
      | exact (List.mem_append.mp
            (show f ∈ ca.filesOnDisk ++ [c.path] from h)).elim
          (fun h2 => Or.inl h2) (fun h2 => Or.inr (List.mem_singleton.mp h2))

/-- Every file collected by the child-enumeration loop is the path of one of
the enumerated children (or was already collected). -/
theorem classify_filesOnDisk_mem (env : Env) (ctx : ScanCtx) :
    ∀ (cs : List ChildInfo) (ca : ClassifyAcc) (f : String),
      f ∈ (cs.foldl (classifyChild env ctx) ca).filesOnDisk →
      f ∈ ca.filesOnDisk ∨ ∃ c ∈ cs, f = c.path := by
  intro cs
  induction cs with
  | nil =>
    intro ca f h
    exact Or.inl (by simpa using h)
  | cons c rest ih =>
    intro ca f h
    simp only [List.foldl_cons] at h
    rcases ih (classifyChild env ctx ca c) f h with h2 | ⟨c2, hc2, he⟩
    · rcases classifyChild_filesOnDisk env ctx ca c f h2 with h3 | h3
      · exact Or.inl h3
      · exact Or.inr ⟨c, List.mem_cons_self c rest, h3⟩
    · exact Or.inr ⟨c2, List.mem_cons_of_mem c hc2, he⟩

/-- The whole recursive directory walk evolves the accumulator with respect
to an absent song: no touched record and no relocation entry at the song's
path is ever added, and deleted-set membership of the song is preserved. -/
theorem scanSubdirectory_evolves (song : Song) (env : Env) (stop : Bool)
    (ctx : ScanCtx) (henv : SongAbsent env song) :
    ∀ (fuel : Nat) (path : String) (subdir : Subdirectory) (fc : Nat)
      (a : ScanAcc) (force : Bool),
      accEvolves song a (scanSubdirectory env stop ctx fuel path subdir fc a force) := by
  intro fuel
  induction fuel with
  | zero =>
    intro path subdir fc a force
    exact accEvolves_of_parts song a _ rfl rfl rfl
  | succ g ih =>
    intro path subdir fc a force
    simp only [scanSubdirectory]
    by_cases h1 : skipSymlink env path = true
    · rw [if_pos h1]
      exact accEvolves_refl song a
    · rw [if_neg h1]
      by_cases h2 : env.hasNoMediaFile path = true
      · rw [if_pos h2]
        exact accEvolves_refl song a
      · rw [if_neg h2]
        by_cases h3 : (!ctx.ignoresMtime && !force && ctx.incremental &&
            (subdir.mtime == env.mtime path) &&
            !(env.haveMusicbrainz && env.songTracking &&
              ctx.hasSongsWithMissingFingerprint path)) = true
        · rw [if_pos h3]
          exact accEvolves_addToProgress song a fc
        · rw [if_neg h3]
          refine accEvolves_ite song a _
            (foldl_evolves_proj song (fun x => x) ?hvan1) ?hrest
          case hvan1 =>
            intro y b _
            dsimp only
            split_ifs
            · exact ih b.path b 0 y true
            · exact accEvolves_refl song y
          case hrest =>
            refine accEvolves_trans song ?_ (foldl_evolves_proj song (fun x => x) ?hrec)
            case hrec =>
              intro y b _
              dsimp only
              split_ifs
              · exact accEvolves_refl song y
              · exact ih b.path b 0 y true
            refine accEvolves_trans song ?_
              (scanRecordSubdir_evolves song env ctx path subdir _)
            refine accEvolves_trans song ?_ (scanDetectDeleted_evolves song _ _ _)
            refine accEvolves_trans song ?_
              (foldl_evolves_proj song ScanState.acc ?hfiles)
            case hfiles =>
              intro y b hb
              refine processFile_evolves song env ctx stop path _ y b henv ?_
              rcases classify_filesOnDisk_mem env ctx (env.children path) _ b hb with
                hin | ⟨c, hc, rfl⟩
              · exact absurd hin (List.not_mem_nil b)
              · exact henv.listing_path path c hc
            refine accEvolves_trans song ?_
              (foldl_evolves_proj song ClassifyAcc.acc ?hclass)
            case hclass =>
              intro y b _
              exact classifyChild_acc_evolves song env ctx y b
            refine foldl_evolves_proj song (fun x => x) ?hvan2
            case hvan2 =>
              intro y b _
              dsimp only
              split_ifs
              · exact ih b.path b 0 y true
              · exact accEvolves_refl song y

/-- A projection untouched by every step of a fold is untouched by the
fold. -/
theorem foldl_proj_const {α : Type _} {β : Type _} {γ : Type _} (g : α → γ)
    (f : α → β → α) :
    ∀ (l : List β) (x : α), (∀ y b, b ∈ l → g (f y b) = g y) →
      g (l.foldl f x) = g x := by
  intro l
  induction l with
  | nil => intro x _; rfl
  | cons b rest ih =>
    intro x h
    simp only [List.foldl_cons]
    rw [ih (f x b) (fun y c hc => h y c (List.mem_cons_of_mem b hc)),
      h x b (List.mem_cons_self b rest)]

/-- A predicate preserved by every step of a fold is preserved by the
fold. -/
theorem foldl_preserves {α : Type _} {β : Type _} (P : α → Prop) (f : α → β → α) :
    ∀ (l : List β) (x : α), P x → (∀ y b, b ∈ l → P y → P (f y b)) →
      P (l.foldl f x) := by
  intro l
  induction l with
  | nil => intro x h _; simpa using h
  | cons b rest ih =>
    intro x h hstep
    simp only [List.foldl_cons]
    exact ih (f x b) (hstep x b (List.mem_cons_self b rest) h)
      (fun y c hc hy => hstep y c (List.mem_cons_of_mem b hc) hy)

theorem updateSong_fcp (m o : Song) (a : ScanAcc) :
    (updateSong m o a).filesChangedPath = a.filesChangedPath := by
  unfold updateSong
  split_ifs <;> rfl

theorem cueUpdateStep_fcp (ctx : ScanCtx) (image fingerprint : String)
    (oldSections : List Song) (acc : ScanAcc × List Int) (c : Song) :
    (cueUpdateStep ctx image fingerprint oldSections acc c).1.filesChangedPath =
      acc.1.filesChangedPath := by
  unfold cueUpdateStep
  dsimp only
  cases sectionFor oldSections c.beginningNanosec with
  | none => rfl
  | some m => exact updateSong_fcp m _ acc.1

theorem updateCueAssociatedSongs_fcp (env : Env) (ctx : ScanCtx)
    (file path fingerprint matchingCue image : String) (a : ScanAcc) :
    (updateCueAssociatedSongs env ctx file path fingerprint matchingCue image a).filesChangedPath =
      a.filesChangedPath := by
  unfold updateCueAssociatedSongs
  split_ifs
  · rfl
  · dsimp only
    exact foldl_proj_const (fun x : ScanAcc × List Int => x.1.filesChangedPath)
      (cueUpdateStep ctx image fingerprint (env.getSongsByUrl file))
      (env.cueLoad matchingCue path) (a, [])
      (fun y b _ => cueUpdateStep_fcp ctx image fingerprint _ y b)

theorem updateNonCueAssociatedSong_fcp (env : Env) (ctx : ScanCtx)
    (file fingerprint : String) (matching : Song) (image : String)
    (cueDeleted : Bool) (a : ScanAcc) :
    (updateNonCueAssociatedSong env ctx file fingerprint matching image cueDeleted a).filesChangedPath =
      a.filesChangedPath := by
  unfold updateNonCueAssociatedSong
  cases hr : env.readTags file with
  | none => split_ifs <;> rfl
  | some o =>
    rw [updateSong_fcp]
    split_ifs <;> rfl

theorem updateFoundByPath_fcp (env : Env) (ctx : ScanCtx) (stop : Bool)
    (path matchingCue file : String) (matchingSong : Song) (st : ScanState) :
    (updateFoundByPath env ctx stop path matchingCue file matchingSong st).acc.filesChangedPath =
      st.acc.filesChangedPath := by
  unfold updateFoundByPath
  dsimp only
  by_cases hex : env.pathExists file = true
  · rw [if_neg (by simp [hex])]
    split_ifs <;>
      simp [ScanAcc.addToProgress, updateCueAssociatedSongs_fcp,
        updateNonCueAssociatedSong_fcp]
  · have hexf : env.pathExists file = false := by
      cases hx : env.pathExists file
      · rfl
      · exact absurd hx hex
    rw [if_pos (by simp [hexf])]
    rfl

theorem updateFoundByFingerprint_fcp (env : Env) (ctx : ScanCtx) (stop : Bool)
    (path matchingCue file fingerprint : String) (found : Song) (st : ScanState) :
    (updateFoundByFingerprint env ctx stop path matchingCue file fingerprint found st).acc.filesChangedPath =
      st.acc.filesChangedPath ++ [found.path] := by
  unfold updateFoundByFingerprint
  dsimp only
  by_cases hex : env.pathExists file = true
  · rw [if_neg (by simp [hex])]
    split_ifs <;>
      simp [ScanAcc.addToProgress, updateCueAssociatedSongs_fcp,
        updateNonCueAssociatedSong_fcp]
  · have hexf : env.pathExists file = false := by
      cases hx : env.pathExists file
      · rfl
      · exact absurd hx hex
    rw [if_pos (by simp [hexf])]
    split_ifs <;> rfl

theorem addNewFile_fcp (env : Env) (ctx : ScanCtx) (stop : Bool)
    (path file fingerprint matchingCue : String) (st : ScanState) :
    (addNewFile env ctx stop path file fingerprint matchingCue st).acc.filesChangedPath =
      st.acc.filesChangedPath := by
  unfold addNewFile
  dsimp only
  split_ifs <;> rfl

theorem processFile_fcp (song : Song) (env : Env) (ctx : ScanCtx) (stop : Bool)
    (path : String) (songsInDb : List Song) (st : ScanState) (file : String)
    (henv : SongAbsent env song) :
    ∀ p ∈ (processFile env ctx stop path songsInDb st file).acc.filesChangedPath,
      p ∈ st.acc.filesChangedPath ∨ p ≠ song.path := by
  intro p
  unfold processFile
  dsimp only
  cases hm : findSongByPath songsInDb file with
  | some matchingSong =>
    intro hp
    rw [updateFoundByPath_fcp] at hp
    exact Or.inl hp
  | none =>
    cases hm2 : (if env.songTracking && computeFingerprint env file != "" &&
          computeFingerprint env file != "NONE" then
        findSongByFingerprint env file (computeFingerprint env file)
      else none) with
    | some found =>
      intro hp
      rw [updateFoundByFingerprint_fcp] at hp
      rcases List.mem_append.mp hp with h | h
      · exact Or.inl h
      · have hfound : findSongByFingerprint env file (computeFingerprint env file) =
            some found := by
          by_cases hc : (env.songTracking && computeFingerprint env file != "" &&
              computeFingerprint env file != "NONE") = true
          · rwa [if_pos hc] at hm2
          · rw [if_neg hc] at hm2
            cases hm2
        have hmem : found ∈ env.getSongsByFingerprint (computeFingerprint env file) := by
          unfold findSongByFingerprint at hfound
          exact List.mem_of_find?_eq_some hfound
        rcases List.mem_singleton.mp h with rfl
        exact Or.inr (henv.fingerprint_path _ found hmem)
    | none =>
      intro hp
      rw [addNewFile_fcp] at hp
      exact Or.inl hp

theorem processFiles_fcp (song : Song) (env : Env) (ctx : ScanCtx) (stop : Bool)
    (path : String) (songsInDb : List Song) (henv : SongAbsent env song) :
    ∀ (files : List String) (st : ScanState) (p : String),
      p ∈ (files.foldl (processFile env ctx stop path songsInDb) st).acc.filesChangedPath →
      p ∈ st.acc.filesChangedPath ∨ p ≠ song.path := by
  intro files
  induction files with
  | nil =>
    intro st p hp
    exact Or.inl (by simpa using hp)
  | cons f rest ih =>
    intro st p hp
    simp only [List.foldl_cons] at hp
    rcases ih _ p hp with h | h
    · exact processFile_fcp song env ctx stop path songsInDb st f henv p h
    · exact Or.inr h

theorem updateFoundByPath_files (env : Env) (ctx : ScanCtx) (stop : Bool)
    (path matchingCue file : String) (matchingSong : Song) (st : ScanState)
    (f2 : String)
    (h : f2 ∈ (updateFoundByPath env ctx stop path matchingCue file matchingSong st).filesOnDisk) :
    f2 ∈ st.filesOnDisk := by
  unfold updateFoundByPath at h
  dsimp only at h
  by_cases hex : env.pathExists file = true
  · rw [if_neg (by simp [hex])] at h
    exact h
  · have hexf : env.pathExists file = false := by
      cases hx : env.pathExists file
      · rfl
      · exact absurd hx hex
    rw [if_pos (by simp [hexf])] at h
    exact (List.mem_filter.mp
      (show f2 ∈ st.filesOnDisk.filter (fun f => f != file) from h)).1

theorem updateFoundByFingerprint_files (env : Env) (ctx : ScanCtx) (stop : Bool)
    (path matchingCue file fingerprint : String) (found : Song) (st : ScanState)
    (f2 : String)
    (h : f2 ∈ (updateFoundByFingerprint env ctx stop path matchingCue file fingerprint found st).filesOnDisk) :
    f2 ∈ st.filesOnDisk := by
  unfold updateFoundByFingerprint at h
  dsimp only at h
  by_cases hex : env.pathExists file = true
  · rw [if_neg (by simp [hex])] at h
    exact h
  · have hexf : env.pathExists file = false := by
      cases hx : env.pathExists file
      · rfl
      · exact absurd hx hex
    rw [if_pos (by simp [hexf])] at h
    exact (List.mem_filter.mp
      (show f2 ∈ st.filesOnDisk.filter (fun f => f != file) from h)).1

theorem addNewFile_files (env : Env) (ctx : ScanCtx) (stop : Bool)
    (path file fingerprint matchingCue : String) (st : ScanState) (f2 : String)
    (h : f2 ∈ (addNewFile env ctx stop path file fingerprint matchingCue st).filesOnDisk) :
    f2 ∈ st.filesOnDisk := by
  unfold addNewFile at h
  dsimp only at h
  split_ifs at h <;> exact h

theorem processFile_files (env : Env) (ctx : ScanCtx) (stop : Bool)
    (path : String) (songsInDb : List Song) (st : ScanState) (file f2 : String)
    (h : f2 ∈ (processFile env ctx stop path songsInDb st file).filesOnDisk) :
    f2 ∈ st.filesOnDisk := by
  unfold processFile at h
  dsimp only at h
  revert h
  cases hm : findSongByPath songsInDb file with
  | some matchingSong =>
    intro h
    exact updateFoundByPath_files env ctx stop path _ file matchingSong st f2 h
  | none =>
    cases hm2 : (if env.songTracking && computeFingerprint env file != "" &&
          computeFingerprint env file != "NONE" then
        findSongByFingerprint env file (computeFingerprint env file)
      else none) with
    | some found =>
      intro h
      exact updateFoundByFingerprint_files env ctx stop path _ file _ found st f2 h
    | none =>
      intro h
      exact addNewFile_files env ctx stop path file _ _ st f2 h

theorem processFiles_filesOnDisk (env : Env) (ctx : ScanCtx) (stop : Bool)
    (path : String) (songsInDb : List Song) :
    ∀ (files : List String) (st : ScanState) (f2 : String),
      f2 ∈ (files.foldl (processFile env ctx stop path songsInDb) st).filesOnDisk →
      f2 ∈ st.filesOnDisk := by
  intro files
  induction files with
  | nil =>
    intro st f2 h
    simpa using h
  | cons f rest ih =>
    intro st f2 h
    simp only [List.foldl_cons] at h
    exact processFile_files env ctx stop path songsInDb st f f2 (ih _ f2 h)

theorem classifyChild_fcp (env : Env) (ctx : ScanCtx) (ca : ClassifyAcc)
    (c : ChildInfo) :
    (classifyChild env ctx ca c).acc.filesChangedPath = ca.acc.filesChangedPath := by
  unfold classifyChild
  dsimp only
  split_ifs <;> rfl

theorem classify_fold_fcp (env : Env) (ctx : ScanCtx) (cs : List ChildInfo)
    (ca : ClassifyAcc) :
    ((cs.foldl (classifyChild env ctx) ca).acc).filesChangedPath =
      ca.acc.filesChangedPath :=
  foldl_proj_const (fun x : ClassifyAcc => x.acc.filesChangedPath)
    (classifyChild env ctx) cs ca (fun y b _ => classifyChild_fcp env ctx y b)

theorem scan_fold_fcp (song : Song) (env : Env) (stop : Bool) (ctx : ScanCtx)
    (henv : SongAbsent env song) (fuel : Nat) (path : String) :
    ∀ (prevs : List Subdirectory) (x : ScanAcc) (p : String),
      p ∈ (prevs.foldl
        (fun acc prev =>
          if !(env.pathExists prev.path) && prev.path != path then
            scanSubdirectory env stop ctx fuel prev.path prev 0 acc true
          else acc) x).filesChangedPath →
      p ∈ x.filesChangedPath ∨ p ≠ song.path := by
  intro prevs
  induction prevs with
  | nil =>
    intro x p hp
    exact Or.inl (by simpa using hp)
  | cons b rest ih =>
    intro x p hp
    simp only [List.foldl_cons] at hp
    rcases ih _ p hp with h | h
    · revert h
      split_ifs
      · intro h
        rcases (scanSubdirectory_evolves song env stop ctx henv fuel b.path b 0 x
            true).2.1 p h with h2 | h2
        · exact Or.inl h2
        · exact Or.inr h2
      · intro h
        exact Or.inl h
    · exact Or.inr h

/-- A walked directory (not skipped, mtime mismatch forcing the walk, stop
not requested) whose database still lists an available song that is absent
from the directory listing (and nowhere else on disk) files that song as
deleted. -/
theorem scanSubdirectory_deleted_complete (song : Song) (env : Env) (ctx : ScanCtx)
    (henv : SongAbsent env song) (fuel : Nat) (path : String)
    (subdir : Subdirectory) (fc : Nat) (a : ScanAcc)
    (hsym : skipSymlink env path = false)
    (hnm : env.hasNoMediaFile path = false)
    (hmt : subdir.mtime ≠ env.mtime path)
    (hsong : song ∈ ctx.cachedSongs)
    (hdir : dirPart song.path = path)
    (hunav : song.unavailable = false)
    (hfcp0 : ∀ p ∈ a.filesChangedPath, p ≠ song.path) :
    song ∈ (scanSubdirectory env false ctx (fuel + 1) path subdir fc a false).deletedSongs := by
  simp only [scanSubdirectory]
  rw [if_neg (by simp [hsym])]
  rw [if_neg (by simp [hnm])]
  have hb : (subdir.mtime == env.mtime path) = false := beq_eq_false_iff_ne.mpr hmt
  rw [if_neg (by simp [hb])]
  rw [if_neg (by simp)]
  refine foldl_preserves (fun x : ScanAcc => song ∈ x.deletedSongs) _ _ _ ?init ?step
  case step =>
    intro y b _ hy
    split_ifs <;>
      first
        | exact hy
        | exact (scanSubdirectory_evolves song env false ctx henv fuel b.path b 0 y
            true).2.2 hy
  case init =>
    dsimp only
    rw [scanRecordSubdir_deletedSongs]
    refine scanDetectDeleted_mem song _ _ _ ?h1 hunav ?h3 ?h4
    case h1 =>
      unfold ScanCtx.findSongsInSubdirectory
      refine List.mem_filter.mpr ⟨hsong, ?_⟩
      simp [hdir]
    case h3 =>
      intro hmem
      have h5 := processFiles_filesOnDisk env ctx false path
        (ctx.findSongsInSubdirectory path) _ _ _ hmem
      rcases classify_filesOnDisk_mem env ctx (env.children path) _ song.path h5 with
        h6 | ⟨c, hc, he⟩
      · exact absurd h6 (List.not_mem_nil _)
      · exact (henv.listing_path path c hc) he.symm
    case h4 =>
      intro hp
      rcases processFiles_fcp song env ctx false path
          (ctx.findSongsInSubdirectory path) henv _ _ _ hp with h6 | h6
      · dsimp only at h6
        rw [classify_fold_fcp] at h6
        dsimp only at h6
        rcases scan_fold_fcp song env false ctx henv fuel path _ _ _ h6 with h8 | h8
        · exact (hfcp0 song.path h8) rfl
        · exact h8 rfl
      · exact h6 rfl

theorem filter_deletion_watch_remove (dw : Bool) (l : List Subdirectory) :
    (l.filterMap (fun sd => if dw then some (WatcherEvent.removeWatch sd)
      else none)).filter isDeletionEvent = [] := by
  rw [List.filter_eq_nil_iff]
  intro x hx
  rcases List.mem_filterMap.mp hx with ⟨sd, _, he⟩
  split_ifs at he
  cases he
  simp [isDeletionEvent]

theorem filter_deletion_watch_add (dw : Bool) (l : List Subdirectory) :
    (l.filterMap (fun sd => if dw then some (WatcherEvent.addWatch sd.path)
      else none)).filter isDeletionEvent = [] := by
  rw [List.filter_eq_nil_iff]
  intro x hx
  rcases List.mem_filterMap.mp hx with ⟨sd, _, he⟩
  split_ifs at he
  cases he
  simp [isDeletionEvent]

/-- With a non-empty deleted set, the commit emits exactly one deletion
event: SongsUnavailable when the mark-unavailable policy is on, SongsDeleted
when it is off. -/
theorem commit_deletion_events (monitor dirWatched : Bool) (ctx : ScanCtx)
    (a : ScanAcc) (hne : a.deletedSongs ≠ []) :
    (ctx.markSongsUnavailable = true →
      (commitNewOrUpdatedSongs monitor dirWatched ctx a).filter isDeletionEvent =
        [WatcherEvent.songsUnavailable a.deletedSongs]) ∧
    (ctx.markSongsUnavailable = false →
      (commitNewOrUpdatedSongs monitor dirWatched ctx a).filter isDeletionEvent =
        [WatcherEvent.songsDeleted a.deletedSongs]) := by
  have hE : a.deletedSongs.isEmpty = false := by
    cases hq : a.deletedSongs.isEmpty
    · rfl
    · exact absurd (List.isEmpty_iff.mp hq) hne
  constructor <;> intro hmk <;> cases monitor <;>
    simp [commitNewOrUpdatedSongs, hE, hmk, List.filter_append, isDeletionEvent,
      filter_deletion_watch_remove, filter_deletion_watch_add,
      apply_ite (List.filter isDeletionEvent)]

/-- C3: a previously scanned song that is still listed as available in the
database but whose file is absent from disk at the next walk of its directory
(and whose content has not resurfaced under another path) is filed in the
deleted set and not in the touched set, and committing the transaction emits
it in exactly one deletion event: SongsUnavailable under the mark-unavailable
policy, SongsDeleted otherwise -- never both. -/
theorem deleted_song_emitted_once (song : Song) (env : Env) (ctx : ScanCtx)
    (monitor dirWatched : Bool) (fuel : Nat) (path : String)
    (subdir : Subdirectory) (filesCount : Nat) (a : ScanAcc)
    (henv : SongAbsent env song)
    (hsym : skipSymlink env path = false)
    (hnm : env.hasNoMediaFile path = false)
    (hmt : subdir.mtime ≠ env.mtime path)
    (hsong : song ∈ ctx.cachedSongs)
    (hdir : dirPart song.path = path)
    (hunav : song.unavailable = false)
    (htch : a.touchedSongs = [])
    (hfcp : a.filesChangedPath = []) :
    song ∈ (scanSubdirectory env false ctx (fuel + 1) path subdir filesCount a
      false).deletedSongs ∧
    song ∉ (scanSubdirectory env false ctx (fuel + 1) path subdir filesCount a
      false).touchedSongs ∧
    (ctx.markSongsUnavailable = true →
      (commitNewOrUpdatedSongs monitor dirWatched ctx
          (scanSubdirectory env false ctx (fuel + 1) path subdir filesCount a
            false)).filter isDeletionEvent =
        [WatcherEvent.songsUnavailable
          (scanSubdirectory env false ctx (fuel + 1) path subdir filesCount a
            false).deletedSongs]) ∧
    (ctx.markSongsUnavailable = false →
      (commitNewOrUpdatedSongs monitor dirWatched ctx
          (scanSubdirectory env false ctx (fuel + 1) path subdir filesCount a
            false)).filter isDeletionEvent =
        [WatcherEvent.songsDeleted
          (scanSubdirectory env false ctx (fuel + 1) path subdir filesCount a
            false).deletedSongs]) := by
  have hfcp0 : ∀ p ∈ a.filesChangedPath, p ≠ song.path := by
    rw [hfcp]
    intro p hp
    cases hp
  have hdel := scanSubdirectory_deleted_complete song env ctx henv fuel path subdir
    filesCount a hsym hnm hmt hsong hdir hunav hfcp0
  have hev := scanSubdirectory_evolves song env false ctx henv (fuel + 1) path
    subdir filesCount a false
  have hne : (scanSubdirectory env false ctx (fuel + 1) path subdir filesCount a
      false).deletedSongs ≠ [] := by
    intro hc
    rw [hc] at hdel
    cases hdel
  have hcommit := commit_deletion_events monitor dirWatched ctx _ hne
  refine ⟨hdel, ?_, hcommit.1, hcommit.2⟩
  intro hmem
  rcases hev.1 song hmem with h | h
  · rw [htch] at h
    cases h
  · exact h rfl

/-- C3 witness: a one-song database, the file gone from an empty filesystem;
the walk files the song as deleted and the commit (mark-unavailable policy
on) emits it once as SongsUnavailable. -/
theorem deleted_song_emitted_once_witness :
    SongAbsent baseEnv testSongOld ∧
    testSongOld ∈ (scanSubdirectory baseEnv false delCtx 2 "/old"
      { directoryId := 1, path := "/old", mtime := 5 } 0 emptyScanAcc
      false).deletedSongs ∧
    (commitNewOrUpdatedSongs true true delCtx
        (scanSubdirectory baseEnv false delCtx 2 "/old"
          { directoryId := 1, path := "/old", mtime := 5 } 0 emptyScanAcc
          false)).filter isDeletionEvent =
      [WatcherEvent.songsUnavailable
        (scanSubdirectory baseEnv false delCtx 2 "/old"
          { directoryId := 1, path := "/old", mtime := 5 } 0 emptyScanAcc
          false).deletedSongs] := by
  have habs : SongAbsent baseEnv testSongOld := by
    refine ⟨?_, ?_, ?_, ?_⟩
    · intro f s h
      cases h
    · intro c d s h
      cases h
    · intro fp s h
      cases h
    · intro d c h
      cases h
  have hmain := deleted_song_emitted_once testSongOld baseEnv delCtx true true 1
    "/old" { directoryId := 1, path := "/old", mtime := 5 } 0 emptyScanAcc habs
    (by decide) (by decide) (by decide) (by decide) (by decide) (by decide)
    (by decide) (by decide)
  exact ⟨habs, hmain.1, hmain.2.2.1 rfl⟩
